import Mathlib

/-!
Verification of the data-transformation microservice: a shallow embedding of
the ETL transformers (`app/etl/transformers/*`), the schema enforcer and JSON
flattener (`utils/*`), and the parallel batch normalizer
(`app/services/data_service.py`), together with proofs of the specified
properties.

Modelling conventions:
* Python scalar and JSON values are modelled by the inductive type `PyVal`;
  Python `float` values are modelled as exact rationals, pandas `NaN`/`NaT`
  as `PyVal.null`, and pandas `Timestamp` cells as `PyVal.ts`.
* A Python dict is an insertion-ordered association list `List (String × PyVal)`.
* pandas DataFrames are row-major: a column-name list plus one association
  row per record; missing cells read as `null` (NaN), matching pandas fill.
* I/O (HTTP, database cursors, file handles) is out of scope: the extractor
  result is passed to each transformer entry point as an argument, and file
  writes are reified as a trace of `FileWrite` events.
-/

namespace DataMS

/-- Python/JSON values: `None`/`NaN`, `str`, numbers (modelled as exact
rationals), `bool`, pandas timestamps, lists and dicts. -/
inductive PyVal where
  | null : PyVal
  | str (s : String) : PyVal
  | num (q : ℚ) : PyVal
  | bool (b : Bool) : PyVal
  | ts (t : ℚ) : PyVal
  | list (l : List PyVal) : PyVal
  | dict (kvs : List (String × PyVal)) : PyVal

/-- A Python dict (insertion-ordered association list). -/
abbrev Rec := List (String × PyVal)

mutual

/-- Boolean equality on `PyVal` (handwritten: the nested inductive does not
support derived instances). -/
def PyVal.beq : PyVal → PyVal → Bool
  | .null, .null => true
  | .str a, .str b => a == b
  | .num a, .num b => a == b
  | .bool a, .bool b => a == b
  | .ts a, .ts b => a == b
  | .list a, .list b => PyVal.beqList a b
  | .dict a, .dict b => PyVal.beqKVs a b
  | _, _ => false

/-- Elementwise equality on lists of `PyVal`. -/
def PyVal.beqList : List PyVal → List PyVal → Bool
  | [], [] => true
  | a :: as, b :: bs => PyVal.beq a b && PyVal.beqList as bs
  | _, _ => false

/-- Elementwise equality on association lists over `PyVal`. -/
def PyVal.beqKVs : List (String × PyVal) → List (String × PyVal) → Bool
  | [], [] => true
  | (k₁, v₁) :: as, (k₂, v₂) :: bs => k₁ == k₂ && PyVal.beq v₁ v₂ && PyVal.beqKVs as bs
  | _, _ => false

end

/-- Structural induction principle for `PyVal` (membership form for the
nested lists). -/
theorem PyVal.indOn {P : PyVal → Prop} (h0 : P .null) (h1 : ∀ s, P (.str s))
    (h2 : ∀ q, P (.num q)) (h3 : ∀ b, P (.bool b)) (h4 : ∀ t, P (.ts t))
    (h5 : ∀ l, (∀ v ∈ l, P v) → P (.list l))
    (h6 : ∀ kvs, (∀ kv ∈ kvs, P kv.2) → P (.dict kvs)) : ∀ v, P v
  | .null => h0
  | .str s => h1 s
  | .num q => h2 q
  | .bool b => h3 b
  | .ts t => h4 t
  | .list l => h5 l (fun v hv => PyVal.indOn h0 h1 h2 h3 h4 h5 h6 v)
  | .dict kvs => h6 kvs (fun kv hkv => PyVal.indOn h0 h1 h2 h3 h4 h5 h6 kv.2)
termination_by v => sizeOf v
decreasing_by
  · have := List.sizeOf_lt_of_mem hv
    simp only [PyVal.list.sizeOf_spec]
    omega
  · have h := List.sizeOf_lt_of_mem hkv
    obtain ⟨k, v⟩ := kv
    simp only [PyVal.dict.sizeOf_spec, Prod.mk.sizeOf_spec] at *
    omega

/-- `beqList` decides equality, given that `beq` does on the elements. -/
theorem PyVal.beqList_iff (l₁ : List PyVal)
    (ih : ∀ v ∈ l₁, ∀ b, PyVal.beq v b = true ↔ v = b) :
    ∀ l₂, PyVal.beqList l₁ l₂ = true ↔ l₁ = l₂ := by
  induction l₁ with
  | nil => intro l₂; cases l₂ <;> simp [PyVal.beqList]
  | cons a as ihl =>
    intro l₂
    cases l₂ with
    | nil => simp [PyVal.beqList]
    | cons b bs =>
      simp only [PyVal.beqList, Bool.and_eq_true, List.cons.injEq]
      rw [ih a (by simp) b, ihl (fun v hv => ih v (by simp [hv])) bs]

/-- `beqKVs` decides equality, given that `beq` does on the values. -/
theorem PyVal.beqKVs_iff (l₁ : List (String × PyVal))
    (ih : ∀ kv ∈ l₁, ∀ b, PyVal.beq kv.2 b = true ↔ kv.2 = b) :
    ∀ l₂, PyVal.beqKVs l₁ l₂ = true ↔ l₁ = l₂ := by
  induction l₁ with
  | nil => intro l₂; cases l₂ <;> simp [PyVal.beqKVs]
  | cons a as ihl =>
    intro l₂
    obtain ⟨k₁, v₁⟩ := a
    cases l₂ with
    | nil => simp [PyVal.beqKVs]
    | cons b bs =>
      obtain ⟨k₂, v₂⟩ := b
      simp only [PyVal.beqKVs, Bool.and_eq_true, List.cons.injEq, Prod.mk.injEq,
        beq_iff_eq]
      rw [ih (k₁, v₁) (by simp) v₂, ihl (fun kv hkv => ih kv (by simp [hkv])) bs]

/-- `PyVal.beq` decides propositional equality. -/
theorem PyVal.beq_iff : ∀ a b : PyVal, PyVal.beq a b = true ↔ a = b := by
  intro a
  induction a using PyVal.indOn with
  | h0 => intro b; cases b <;> simp [PyVal.beq]
  | h1 s => intro b; cases b <;> simp [PyVal.beq]
  | h2 q => intro b; cases b <;> simp [PyVal.beq]
  | h3 x => intro b; cases b <;> simp [PyVal.beq]
  | h4 t => intro b; cases b <;> simp [PyVal.beq]
  | h5 l ih =>
    intro b
    cases b <;> simp only [PyVal.beq, PyVal.list.injEq] <;> try simp
    exact PyVal.beqList_iff l ih _
  | h6 kvs ih =>
    intro b
    cases b <;> simp only [PyVal.beq, PyVal.dict.injEq] <;> try simp
    exact PyVal.beqKVs_iff kvs ih _

instance : DecidableEq PyVal := fun a b => decidable_of_iff _ (PyVal.beq_iff a b)

/-- Rendering of a rational number (model of Python's textual form of a
number; an injective canonical form is all the proofs rely on, not the
exact float formatting). -/
def ratStr (q : ℚ) : String :=
  if q.den = 1 then toString q.num else toString q.num ++ "/" ++ toString q.den

/-- Model of Python `str(x)` on cell values. Lists and dicts never reach a
`str()` call in the verified claims; they are given fixed placeholders. -/
def pyStr : PyVal → String
  | .null => "None"
  | .str s => s
  | .num q => ratStr q
  | .bool b => if b then "True" else "False"
  | .ts t => "ts:" ++ ratStr t
  | .list _ => "<list>"
  | .dict _ => "<dict>"

/-- Python truthiness test (`not x`): `None`, `""`, `0`, `False`, empty
containers are falsy. -/
def pyFalsy : PyVal → Bool
  | .null => true
  | .str s => s = ""
  | .num q => q = 0
  | .bool b => !b
  | .ts _ => false
  | .list l => l.isEmpty
  | .dict kvs => kvs.isEmpty

/-- `d[k] = v` on a Python dict: replace the value at the first occurrence of
`k`, or append `(k, v)` when `k` is absent. -/
def setKV (r : Rec) (k : String) (v : PyVal) : Rec :=
  match r with
  | [] => [(k, v)]
  | (k', v') :: t => if k' = k then (k, v) :: t else (k', v') :: setKV t k v

theorem lookup_setKV_self (r : Rec) (k : String) (v : PyVal) :
    (setKV r k v).lookup k = some v := by
  induction r with
  | nil => simp [setKV]
  | cons a t ih =>
    obtain ⟨k', v'⟩ := a
    by_cases h : k' = k
    · simp [setKV, h]
    · have hb : (k == k') = false := by
        simp [beq_eq_false_iff_ne]
        exact fun he => h he.symm
      simp [setKV, h, List.lookup, hb, ih]

theorem lookup_setKV_ne (r : Rec) (k k' : String) (v : PyVal) (h : k' ≠ k) :
    (setKV r k v).lookup k' = r.lookup k' := by
  have hb : (k' == k) = false := by simp [beq_eq_false_iff_ne, h]
  induction r with
  | nil => simp [setKV, List.lookup, hb]
  | cons a t ih =>
    obtain ⟨k₀, v₀⟩ := a
    by_cases h0 : k₀ = k
    · subst h0
      simp [setKV, List.lookup, hb]
    · by_cases h1 : k' = k₀
      · simp [setKV, h0, List.lookup, h1]
      · have hb1 : (k' == k₀) = false := by simp [beq_eq_false_iff_ne, h1]
        simp [setKV, h0, List.lookup, hb1, ih]

/-- A pandas DataFrame, row-major: ordered column names plus one dict per
row.  A cell missing from its row reads as `null` (pandas `NaN` fill). -/
structure DataFrame where
  cols : List String
  rows : List Rec
deriving DecidableEq

namespace DataFrame

/-- `df[c]`: the column `c` as a list of cell values (missing → `null`). -/
def getCol (df : DataFrame) (c : String) : List PyVal :=
  df.rows.map (fun r => (r.lookup c).getD .null)

/-- `df[c] = vals`: columnwise assignment; appends the column name when new. -/
def setCol (df : DataFrame) (c : String) (vals : List PyVal) : DataFrame :=
  { cols := if c ∈ df.cols then df.cols else df.cols ++ [c],
    rows := df.rows.zipWith (fun r v => setKV r c v) vals }

/-- pandas `df.empty`: true iff either axis has length zero. -/
def empty (df : DataFrame) : Bool :=
  df.rows.isEmpty || df.cols.isEmpty

@[simp] theorem length_getCol (df : DataFrame) (c : String) :
    (df.getCol c).length = df.rows.length := by
  simp [getCol]

theorem cols_setCol_of_mem {df : DataFrame} {c : String} (h : c ∈ df.cols)
    (vals : List PyVal) : (df.setCol c vals).cols = df.cols := by
  simp [setCol, h]

theorem rows_length_setCol (df : DataFrame) (c : String) (vals : List PyVal)
    (h : vals.length = df.rows.length) :
    (df.setCol c vals).rows.length = df.rows.length := by
  simp [setCol, h]

theorem zipWith_setKV_lookup_self (c : String) :
    ∀ (rows : List Rec) (vals : List PyVal), vals.length = rows.length →
      (rows.zipWith (fun r v => setKV r c v) vals).map
        (fun r => (r.lookup c).getD .null) = vals := by
  intro rows
  induction rows with
  | nil => intro vals h; cases vals <;> simp_all
  | cons r t ih =>
    intro vals h
    cases vals with
    | nil => simp_all
    | cons v vs =>
      simp only [List.zipWith, List.map, lookup_setKV_self, Option.getD_some,
        List.cons.injEq, true_and]
      exact ih vs (Nat.succ_injective (by simpa using h))

theorem zipWith_setKV_lookup_ne (c c' : String) (hne : c' ≠ c) :
    ∀ (rows : List Rec) (vals : List PyVal), vals.length = rows.length →
      (rows.zipWith (fun r v => setKV r c v) vals).map
        (fun r => (r.lookup c').getD .null) =
      rows.map (fun r => (r.lookup c').getD .null) := by
  intro rows
  induction rows with
  | nil => intro vals h; cases vals <;> simp_all
  | cons r t ih =>
    intro vals h
    cases vals with
    | nil => simp_all
    | cons v vs =>
      simp only [List.zipWith, List.map, lookup_setKV_ne r c c' v hne,
        List.cons.injEq, true_and]
      exact ih vs (Nat.succ_injective (by simpa using h))

theorem getCol_setCol_self (df : DataFrame) (c : String) (vals : List PyVal)
    (h : vals.length = df.rows.length) :
    (df.setCol c vals).getCol c = vals := by
  simp only [setCol, getCol]
  exact zipWith_setKV_lookup_self c df.rows vals h

theorem getCol_setCol_ne (df : DataFrame) (c c' : String) (vals : List PyVal)
    (h : vals.length = df.rows.length) (hne : c' ≠ c) :
    (df.setCol c vals).getCol c' = df.getCol c' := by
  simp only [setCol, getCol]
  exact zipWith_setKV_lookup_ne c c' hne df.rows vals h

end DataFrame

/-- The first-seen-order union of the row keys: the column index pandas
builds in `pd.DataFrame(list_of_dicts)`. -/
def collectCols (rs : List Rec) : List String :=
  rs.foldl (fun acc r => r.foldl (fun a kv => if kv.1 ∈ a then a else a ++ [kv.1]) acc) []

/-- `pd.DataFrame(list_of_dicts)`. -/
def mkDataFrame (rs : List Rec) : DataFrame :=
  { cols := collectCols rs, rows := rs }

/-- `df.to_dict(orient='records')`: one dict per row, keys in column order,
missing cells as `NaN` (`null`). -/
def DataFrame.toRecords (df : DataFrame) : List Rec :=
  df.rows.map (fun r => df.cols.map (fun c => (c, (r.lookup c).getD .null)))

@[simp] theorem DataFrame.length_toRecords (df : DataFrame) :
    df.toRecords.length = df.rows.length := by
  simp [toRecords]

@[simp] theorem mkDataFrame_rows_length (rs : List Rec) :
    (mkDataFrame rs).rows.length = rs.length := rfl

/-! ### String ordering (Python's lexicographic comparison of `str` keys) -/

/-- Lexicographic comparison of character lists by code point, as Python
compares strings in `sorted`/`json.dumps(sort_keys=True)`. -/
def charsLe : List Char → List Char → Bool
  | [], _ => true
  | _ :: _, [] => false
  | a :: as, b :: bs =>
    if a.toNat < b.toNat then true
    else if b.toNat < a.toNat then false
    else charsLe as bs

/-- String comparison by code points. -/
def keyLe (a b : String) : Bool := charsLe a.data b.data

theorem charsLe_total : ∀ a b, charsLe a b = true ∨ charsLe b a = true := by
  intro a
  induction a with
  | nil => intro b; left; rfl
  | cons x xs ih =>
    intro b
    cases b with
    | nil => right; rfl
    | cons y ys =>
      by_cases h1 : x.toNat < y.toNat
      · left; simp [charsLe, h1]
      · by_cases h2 : y.toNat < x.toNat
        · right; simp [charsLe, h1, h2]
        · rcases ih ys with h | h
          · left; simp [charsLe, h1, h2, h]
          · right; simp [charsLe, h1, h2, h]

theorem charsLe_trans : ∀ a b c, charsLe a b = true → charsLe b c = true →
    charsLe a c = true := by
  intro a
  induction a with
  | nil => intros; rfl
  | cons x xs ih =>
    intro b c hab hbc
    cases b with
    | nil => simp [charsLe] at hab
    | cons y ys =>
      cases c with
      | nil => simp [charsLe] at hbc
      | cons z zs =>
        simp only [charsLe] at *
        by_cases hyx : y.toNat < x.toNat
        · simp [Nat.lt_asymm hyx, hyx] at hab
        · by_cases hzy : z.toNat < y.toNat
          · simp [Nat.lt_asymm hzy, hzy] at hbc
          · by_cases hxy : x.toNat < y.toNat
            · have hxz : x.toNat < z.toNat := by omega
              simp [hxz]
            · by_cases hyz : y.toNat < z.toNat
              · have hxz : x.toNat < z.toNat := by omega
                simp [hxz]
              · have h1 : ¬ x.toNat < z.toNat := by omega
                have h2 : ¬ z.toNat < x.toNat := by omega
                simp only [hxy, hyx, if_false, if_true] at hab
                simp only [hyz, hzy, if_false, if_true] at hbc
                simp only [h1, h2, if_false, if_true]
                simp_all
                exact ih ys zs hab hbc

theorem charsLe_antisymm : ∀ a b, charsLe a b = true → charsLe b a = true →
    a = b := by
  intro a
  induction a with
  | nil => intro b hab hba; cases b with
    | nil => rfl
    | cons y ys => simp [charsLe] at hba
  | cons x xs ih =>
    intro b hab hba
    cases b with
    | nil => simp [charsLe] at hab
    | cons y ys =>
      simp only [charsLe] at hab hba
      by_cases hxy : x.toNat < y.toNat
      · simp [Nat.lt_asymm hxy, hxy] at hba
      · by_cases hyx : y.toNat < x.toNat
        · simp [Nat.lt_asymm hyx, hyx] at hab
        · have hx : x = y := Char.eq_of_val_eq (UInt32.ext (by
            simp only [Char.toNat] at hxy hyx
            omega))
          simp only [hxy, hyx, if_false] at hab hba
          simp_all
          exact ih ys hab hba

theorem keyLe_total (a b : String) : keyLe a b = true ∨ keyLe b a = true :=
  charsLe_total a.data b.data

theorem keyLe_trans {a b c : String} (h1 : keyLe a b = true)
    (h2 : keyLe b c = true) : keyLe a c = true :=
  charsLe_trans a.data b.data c.data h1 h2

theorem keyLe_antisymm {a b : String} (h1 : keyLe a b = true)
    (h2 : keyLe b a = true) : a = b := by
  exact String.ext (charsLe_antisymm a.data b.data h1 h2)

section SortPairs

variable {α : Type}

/-- Sorting an association list by key (Python's `sorted(d.items())`, whose
tuple comparison never reaches the values since dict keys are unique). -/
def sortPairs (l : List (String × α)) : List (String × α) :=
  l.insertionSort (fun a b => keyLe a.1 b.1 = true)

instance : IsTotal (String × α) (fun a b => keyLe a.1 b.1 = true) :=
  ⟨fun a b => keyLe_total a.1 b.1⟩

instance : IsTrans (String × α) (fun a b => keyLe a.1 b.1 = true) :=
  ⟨fun _ _ _ h1 h2 => keyLe_trans h1 h2⟩

instance : IsAntisymm (String × α)
    (fun a b => keyLe a.1 b.1 = true ∧ a.1 ≠ b.1) :=
  ⟨fun _ _ h1 h2 => absurd (keyLe_antisymm h1.1 h2.1) h1.2⟩

/-- On key-nodup lists, sorting by key is determined by the multiset of
pairs: any two permuted association lists sort identically. -/
theorem sortPairs_perm_eq {l₁ l₂ : List (String × α)} (hp : l₁.Perm l₂)
    (hnd : (l₁.map Prod.fst).Nodup) : sortPairs l₁ = sortPairs l₂ := by
  have hperm : (sortPairs l₁).Perm (sortPairs l₂) :=
    ((List.perm_insertionSort _ l₁).trans hp).trans
      (List.perm_insertionSort _ l₂).symm
  have hs₁ : (sortPairs l₁).Sorted (fun a b => keyLe a.1 b.1 = true) :=
    List.sorted_insertionSort _ l₁
  have hs₂ : (sortPairs l₂).Sorted (fun a b => keyLe a.1 b.1 = true) :=
    List.sorted_insertionSort _ l₂
  have hnd₁ : ((sortPairs l₁).map Prod.fst).Nodup :=
    (((List.perm_insertionSort _ l₁).map Prod.fst).nodup_iff).mpr hnd
  have hnd₂ : ((sortPairs l₂).map Prod.fst).Nodup := by
    refine ((hperm.map Prod.fst).nodup_iff).mp hnd₁
  have hne₁ : (sortPairs l₁).Pairwise (fun a b => a.1 ≠ b.1) :=
    List.pairwise_map.mp hnd₁
  have hne₂ : (sortPairs l₂).Pairwise (fun a b => a.1 ≠ b.1) :=
    List.pairwise_map.mp hnd₂
  exact List.eq_of_perm_of_sorted hperm (hs₁.and hne₁) (hs₂.and hne₂)

end SortPairs

/-! ### `json.dumps(data, sort_keys=True)` and the content hash
(`DataLakeTransformer._generate_metadata`) -/

/-- JSON string quoting (escape-free model: no verified payload contains
characters needing escapes). -/
def jsonStr (s : String) : String := "\"" ++ s ++ "\""

/-- Model of `json.dumps(v, sort_keys=True)` with the default separators:
every object's items are emitted in sorted key order at every nesting level.
(The values of an object are serialized before sorting; since sorting is by
key only and stable, this agrees with Python's sort-then-serialize.)
`json.dumps` raises on non-JSON values such as datetimes; raw payloads
parsed from JSON never contain them, and they render as a fixed token. -/
def dumps : PyVal → String
  | .null => "null"
  | .bool b => if b then "true" else "false"
  | .num q => ratStr q
  | .str s => jsonStr s
  | .ts _ => "<non-serializable>"
  | .list l => "[" ++ String.intercalate ", " (l.attach.map (fun v => dumps v.1)) ++ "]"
  | .dict kvs => "\x7b" ++ String.intercalate ", "
      ((sortPairs (kvs.attach.map (fun kv => (kv.1.1, dumps kv.1.2)))).map
        (fun p => jsonStr p.1 ++ ": " ++ p.2)) ++ "\x7d"
termination_by v => sizeOf v
decreasing_by
  · have := List.sizeOf_lt_of_mem v.2
    simp only [PyVal.list.sizeOf_spec]
    omega
  · have h := List.sizeOf_lt_of_mem kv.2
    obtain ⟨⟨k, v⟩, hmem⟩ := kv
    simp only [PyVal.dict.sizeOf_spec, Prod.mk.sizeOf_spec] at *
    omega

/-- Recursively sort every object's keys: the canonical form of a payload.
Two payloads are "equal as mappings up to key insertion order" exactly when
their canonical forms coincide. -/
def canonize : PyVal → PyVal
  | .list l => .list (l.attach.map (fun v => canonize v.1))
  | .dict kvs => .dict (sortPairs (kvs.attach.map (fun kv => (kv.1.1, canonize kv.1.2))))
  | v => v
termination_by v => sizeOf v
decreasing_by
  · have := List.sizeOf_lt_of_mem v.2
    simp only [PyVal.list.sizeOf_spec]
    omega
  · have h := List.sizeOf_lt_of_mem kv.2
    obtain ⟨⟨k, v⟩, hmem⟩ := kv
    simp only [PyVal.dict.sizeOf_spec, Prod.mk.sizeOf_spec] at *
    omega

/-- Every object in the payload has pairwise-distinct keys (automatic for
payloads parsed from Python dicts). -/
def keysNodupB : PyVal → Bool
  | .list l => l.attach.all (fun v => keysNodupB v.1)
  | .dict kvs => decide ((kvs.map Prod.fst).Nodup) &&
      kvs.attach.all (fun kv => keysNodupB kv.1.2)
  | _ => true
termination_by v => sizeOf v
decreasing_by
  · have := List.sizeOf_lt_of_mem v.2
    simp only [PyVal.list.sizeOf_spec]
    omega
  · have h := List.sizeOf_lt_of_mem kv.2
    obtain ⟨⟨k, v⟩, hmem⟩ := kv
    simp only [PyVal.dict.sizeOf_spec, Prod.mk.sizeOf_spec] at *
    omega

/-- The MD5 hex digest, modelled as an unspecified deterministic function of
the serialized text: the verified claims depend only on determinism of the
digest, never on its numeric value. -/
def md5hex (s : String) : String := "md5:" ++ s

/-- `hashlib.md5(json.dumps(data, sort_keys=True).encode()).hexdigest()`. -/
def contentHash (v : PyVal) : String := md5hex (dumps v)

@[simp] theorem dumps_list (l : List PyVal) :
    dumps (.list l) = "[" ++ String.intercalate ", " (l.map dumps) ++ "]" := by
  rw [dumps]
  simp only [List.attach_map_coe]

@[simp] theorem dumps_dict (kvs : List (String × PyVal)) :
    dumps (.dict kvs) = "\x7b" ++ String.intercalate ", "
      ((sortPairs (kvs.map (fun kv => (kv.1, dumps kv.2)))).map
        (fun p => jsonStr p.1 ++ ": " ++ p.2)) ++ "\x7d" := by
  rw [dumps]
  exact congrArg (fun x => "\x7b" ++ String.intercalate ", "
    ((sortPairs x).map (fun p => jsonStr p.1 ++ ": " ++ p.2)) ++ "\x7d")
    (List.attach_map_coe kvs (fun kv => (kv.1, dumps kv.2)))

@[simp] theorem canonize_list (l : List PyVal) :
    canonize (.list l) = .list (l.map canonize) := by
  rw [canonize]
  show PyVal.list (l.attach.map (fun v => canonize v.1)) = _
  simp only [List.attach_map_coe]

@[simp] theorem canonize_dict (kvs : List (String × PyVal)) :
    canonize (.dict kvs) =
      .dict (sortPairs (kvs.map (fun kv => (kv.1, canonize kv.2)))) := by
  rw [canonize]
  exact congrArg (fun x => PyVal.dict (sortPairs x))
    (List.attach_map_coe kvs (fun kv => (kv.1, canonize kv.2)))

theorem keysNodupB_list {l : List PyVal} (h : keysNodupB (.list l) = true) :
    ∀ v ∈ l, keysNodupB v = true := by
  rw [keysNodupB] at h
  intro v hv
  simpa using List.all_eq_true.mp h ⟨v, hv⟩ (List.mem_attach l ⟨v, hv⟩)

theorem keysNodupB_dict {kvs : List (String × PyVal)}
    (h : keysNodupB (.dict kvs) = true) :
    (kvs.map Prod.fst).Nodup ∧ ∀ kv ∈ kvs, keysNodupB kv.2 = true := by
  rw [keysNodupB] at h
  rcases Bool.and_eq_true_iff.mp h with ⟨h1, h2⟩
  refine ⟨of_decide_eq_true h1, fun kv hkv => ?_⟩
  simpa using List.all_eq_true.mp h2 ⟨kv, hkv⟩ (List.mem_attach kvs ⟨kv, hkv⟩)

@[simp] theorem canonize_null : canonize .null = .null := by
  rw [canonize] <;> simp

@[simp] theorem canonize_str (s : String) : canonize (.str s) = .str s := by
  rw [canonize] <;> simp

@[simp] theorem canonize_num (q : ℚ) : canonize (.num q) = .num q := by
  rw [canonize] <;> simp

@[simp] theorem canonize_bool (b : Bool) : canonize (.bool b) = .bool b := by
  rw [canonize] <;> simp

@[simp] theorem canonize_ts (t : ℚ) : canonize (.ts t) = .ts t := by
  rw [canonize] <;> simp

theorem all_attach {α : Type} (l : List α) (p : α → Bool) :
    l.attach.all (fun x => p x.1) = l.all p := by
  rw [Bool.eq_iff_iff, List.all_eq_true, List.all_eq_true]
  constructor
  · intro h a ha
    exact h ⟨a, ha⟩ (List.mem_attach l ⟨a, ha⟩)
  · intro h x hx
    exact h x.1 x.2

@[simp] theorem keysNodupB_null : keysNodupB .null = true := by
  rw [keysNodupB] <;> simp

@[simp] theorem keysNodupB_str (s : String) : keysNodupB (.str s) = true := by
  rw [keysNodupB] <;> simp

@[simp] theorem keysNodupB_num (q : ℚ) : keysNodupB (.num q) = true := by
  rw [keysNodupB] <;> simp

@[simp] theorem keysNodupB_bool (b : Bool) : keysNodupB (.bool b) = true := by
  rw [keysNodupB] <;> simp

@[simp] theorem keysNodupB_ts (t : ℚ) : keysNodupB (.ts t) = true := by
  rw [keysNodupB] <;> simp

@[simp] theorem keysNodupB_list_eq (l : List PyVal) :
    keysNodupB (.list l) = l.all keysNodupB := by
  rw [keysNodupB]
  exact all_attach l keysNodupB

@[simp] theorem keysNodupB_dict_eq (kvs : List (String × PyVal)) :
    keysNodupB (.dict kvs) = (decide ((kvs.map Prod.fst).Nodup) &&
      kvs.all (fun kv => keysNodupB kv.2)) := by
  rw [keysNodupB]
  exact congrArg (decide ((kvs.map Prod.fst).Nodup) && ·)
    (all_attach kvs (fun kv => keysNodupB kv.2))

/-- Serialization only depends on the canonical form: on payloads whose
objects have distinct keys, `dumps` of the canonical form is `dumps` itself
(key order was already canonicalized by the sorted emission). -/
theorem dumps_canonize : ∀ v, keysNodupB v = true →
    dumps (canonize v) = dumps v := by
  intro v
  induction v using PyVal.indOn with
  | h0 => intro _; rw [canonize] <;> simp
  | h1 s => intro _; rw [canonize] <;> simp
  | h2 q => intro _; rw [canonize] <;> simp
  | h3 b => intro _; rw [canonize] <;> simp
  | h4 t => intro _; rw [canonize] <;> simp
  | h5 l ih =>
    intro h
    have hvals := keysNodupB_list h
    simp only [canonize_list, dumps_list, List.map_map]
    have : l.map (dumps ∘ canonize) = l.map dumps :=
      List.map_congr_left (fun v hv => ih v hv (hvals v hv))
    rw [this]
  | h6 kvs ih =>
    intro h
    obtain ⟨hnd, hvals⟩ := keysNodupB_dict h
    simp only [canonize_dict, dumps_dict]
    have hmapeq : (kvs.map (fun kv => (kv.1, canonize kv.2))).map
        (fun kv => (kv.1, dumps kv.2)) = kvs.map (fun kv => (kv.1, dumps kv.2)) := by
      rw [List.map_map]
      exact List.map_congr_left (fun kv hkv => by
        simp only [Function.comp]
        rw [ih kv hkv (hvals kv hkv)])
    have e1 : (sortPairs (kvs.map (fun kv => (kv.1, canonize kv.2)))).Perm
        (kvs.map (fun kv => (kv.1, canonize kv.2))) :=
      List.perm_insertionSort _ _
    have hperm : ((sortPairs (kvs.map (fun kv => (kv.1, canonize kv.2)))).map
        (fun kv => (kv.1, dumps kv.2))).Perm (kvs.map (fun kv => (kv.1, dumps kv.2))) := by
      have h2 := e1.map (fun kv => ((kv.1 : String), dumps kv.2))
      rw [hmapeq] at h2
      exact h2
    have hndl : (((sortPairs (kvs.map (fun kv => (kv.1, canonize kv.2)))).map
        (fun kv => (kv.1, dumps kv.2))).map Prod.fst).Nodup := by
      rw [List.map_map]
      have h1 := e1.map (Prod.fst ∘ fun kv => ((kv.1 : String), dumps kv.2))
      rw [h1.nodup_iff, List.map_map]
      have h2 : kvs.map ((Prod.fst ∘ fun kv => ((kv.1 : String), dumps kv.2)) ∘
          fun kv => ((kv.1 : String), canonize kv.2)) = kvs.map Prod.fst :=
        List.map_congr_left (fun kv _ => rfl)
      rw [h2]
      exact hnd
    rw [sortPairs_perm_eq hperm hndl]

/-- C8: the content hash is deterministic, and two payloads that are equal as
mappings — same canonical (recursively key-sorted) form, possibly different
insertion order — hash identically, because serialization emits keys in
canonical sorted order. -/
theorem C8_contentHash_deterministic_sorted :
    (∀ p : PyVal, contentHash p = contentHash p) ∧
    (∀ p q : PyVal, keysNodupB p = true → keysNodupB q = true →
      canonize p = canonize q → contentHash p = contentHash q) := by
  refine ⟨fun p => rfl, fun p q hp hq hc => ?_⟩
  unfold contentHash
  rw [← dumps_canonize p hp, ← dumps_canonize q hq, hc]

/-- Witness for C8: two concrete payloads that differ only in key insertion
order (at both nesting levels) receive the same content hash. -/
theorem C8_contentHash_witness :
    keysNodupB (.dict [("b", .num 1), ("a", .dict [("y", .num 2), ("x", .null)])]) = true ∧
    keysNodupB (.dict [("a", .dict [("x", .null), ("y", .num 2)]), ("b", .num 1)]) = true ∧
    canonize (.dict [("b", .num 1), ("a", .dict [("y", .num 2), ("x", .null)])]) =
      canonize (.dict [("a", .dict [("x", .null), ("y", .num 2)]), ("b", .num 1)]) ∧
    contentHash (.dict [("b", .num 1), ("a", .dict [("y", .num 2), ("x", .null)])]) =
      contentHash (.dict [("a", .dict [("x", .null), ("y", .num 2)]), ("b", .num 1)]) := by
  have h1 : keysNodupB
      (.dict [("b", .num 1), ("a", .dict [("y", .num 2), ("x", .null)])]) = true := by
    simp
  have h2 : keysNodupB
      (.dict [("a", .dict [("x", .null), ("y", .num 2)]), ("b", .num 1)]) = true := by
    simp
  have h3 : canonize (.dict [("b", .num 1), ("a", .dict [("y", .num 2), ("x", .null)])]) =
      canonize (.dict [("a", .dict [("x", .null), ("y", .num 2)]), ("b", .num 1)]) := by
    simp only [canonize_dict, canonize_list, canonize_null, canonize_str, canonize_num,
      canonize_bool, canonize_ts, List.map_cons, List.map_nil]
    decide
  exact ⟨h1, h2, h3, C8_contentHash_deterministic_sorted.2 _ _ h1 h2 h3⟩

/-! ### `DataLakeTransformer` (`app/etl/transformers/data_lake_transformer.py`) -/

/-- A raw payload as the pipeline receives it from the extractor: either an
ordered sequence of field-mappings (tabular) or a single mapping.  (Other
JSON shapes make `_convert_to_dataframe` raise, so no `TransformedBatch` is
produced for them.) -/
inductive RawData where
  | rows (rs : List Rec)
  | single (r : Rec)
deriving DecidableEq

/-- The raw payload as the Python value handed to `json.dumps`. -/
def rawToVal : RawData → PyVal
  | .rows rs => .list (rs.map PyVal.dict)
  | .single r => .dict r

/-- Per-column quality metric maps (`DataQualityTransformer`). -/
structure QualityMetrics where
  completeness : List (String × ℚ)
  uniqueness : List (String × ℚ)
deriving DecidableEq

/-- The metadata dict built by `_generate_metadata`; `quality_metrics` is the
key the quality stage may add later (`none` = absent). -/
structure Metadata where
  load_timestamp : String
  source_system : String
  data_hash : String
  record_count : Nat
  schema_version : String
  quality_metrics : Option QualityMetrics := none
deriving DecidableEq

/-- `DataLakeTransformer._generate_metadata`: timestamp, source, MD5 of the
sorted-key serialization, `len(data) if isinstance(data, list) else 1`, and
the schema version. -/
def generateMetadata (data : RawData) (source now : String) : Metadata :=
  { load_timestamp := now ++ "Z",
    source_system := source,
    data_hash := contentHash (rawToVal data),
    record_count := match data with | .rows rs => rs.length | .single _ => 1,
    schema_version := "1.0" }

/-- `DataLakeTransformer._convert_to_dataframe`. -/
def convertToDataFrame : RawData → DataFrame
  | .rows rs => mkDataFrame rs
  | .single r => mkDataFrame [r]

/-- Model of `pd.to_datetime` string parsing: which strings parse as
timestamps is irrelevant to every verified claim, so the model makes the
conservative choice that none do (any failure leaves the column unchanged
in `_standardize_data_types`). -/
def parseTimestampStr (_ : String) : Option ℚ := none

/-- One cell under `pd.to_numeric` (verified claims only exercise numbers,
nulls and integer literals; other strings fail). -/
def toNumericVal : PyVal → Option PyVal
  | .null => some .null
  | .num q => some (.num q)
  | .bool b => some (.num (if b then 1 else 0))
  | .str s => (s.toInt?).map (fun n => .num (n : ℚ))
  | _ => none

/-- pandas `object` dtype test for a column: it holds Python strings. -/
def isObjectCol (c : List PyVal) : Bool :=
  c.any (fun v => match v with | .str _ => true | _ => false)

/-- `pd.to_datetime(col)` with default `errors='raise'` wrapped in
`try/except`: all-or-nothing conversion. -/
def tryToDatetimeCol (c : List PyVal) : List PyVal :=
  let parsed := c.map (fun v => match v with
    | .null => some PyVal.null
    | .str s => (parseTimestampStr s).map PyVal.ts
    | _ => none)
  if parsed.all Option.isSome then parsed.map (fun o => o.getD .null) else c

/-- `pd.to_numeric(col)` wrapped in `try/except`: all-or-nothing. -/
def tryToNumericCol (c : List PyVal) : List PyVal :=
  let parsed := c.map toNumericVal
  if parsed.all Option.isSome then parsed.map (fun o => o.getD .null) else c

/-- The body of `_standardize_data_types` for one column: try timestamps
first, then numbers, each only on `object`-dtype columns, keeping the
column unchanged on failure. -/
def standardizeCol (c : List PyVal) : List PyVal :=
  let c1 := if isObjectCol c then tryToDatetimeCol c else c
  if isObjectCol c1 then tryToNumericCol c1 else c1

/-- `DataLakeTransformer._standardize_data_types`: the in-place column loop. -/
def DataFrame.standardize (df : DataFrame) : DataFrame :=
  df.cols.foldl (fun d c => d.setCol c (standardizeCol (d.getCol c))) df

@[simp] theorem length_tryToDatetimeCol (c : List PyVal) :
    (tryToDatetimeCol c).length = c.length := by
  simp only [tryToDatetimeCol]
  split <;> simp

@[simp] theorem length_tryToNumericCol (c : List PyVal) :
    (tryToNumericCol c).length = c.length := by
  simp only [tryToNumericCol]
  split <;> simp

@[simp] theorem length_standardizeCol (c : List PyVal) :
    (standardizeCol c).length = c.length := by
  unfold standardizeCol
  have h1 : (if isObjectCol c then tryToDatetimeCol c else c).length = c.length := by
    split <;> simp
  by_cases h : isObjectCol (if isObjectCol c then tryToDatetimeCol c else c) <;>
    simp [h, length_tryToNumericCol, h1]

theorem rows_length_standardize (df : DataFrame) :
    df.standardize.rows.length = df.rows.length := by
  simp only [DataFrame.standardize]
  generalize df.cols = cs
  induction cs generalizing df with
  | nil => rfl
  | cons c t ih =>
    simp only [List.foldl_cons]
    rw [ih]
    exact DataFrame.rows_length_setCol df c _ (by simp)

/-- The transformed batch (`'data'`, `'metadata'`, `'raw_data'` keys). -/
structure TransformedData where
  data : List Rec
  metadata : Metadata
  raw_data : RawData
deriving DecidableEq

namespace DataLakeTransformer

/-- `DataLakeTransformer.transform_api_data` (extraction is performed by the
caller; `raw` is the extractor result, `now` the UTC timestamp). -/
def transform_api_data (raw : RawData) (base_url endpoint now : String) :
    TransformedData :=
  { data := ((convertToDataFrame raw).standardize).toRecords,
    metadata := generateMetadata raw ("API:" ++ base_url ++ endpoint) now,
    raw_data := raw }

/-- `DataLakeTransformer.transform_database_data`. -/
def transform_database_data (raw : RawData) (source_name now : String) :
    TransformedData :=
  { data := ((convertToDataFrame raw).standardize).toRecords,
    metadata := generateMetadata raw source_name now,
    raw_data := raw }

/-- `DataLakeTransformer.transform_file_data` (default source name
`FILE:<path>`). -/
def transform_file_data (raw : RawData) (file_path : String)
    (source_name : Option String) (now : String) : TransformedData :=
  { data := ((convertToDataFrame raw).standardize).toRecords,
    metadata := generateMetadata raw (source_name.getD ("FILE:" ++ file_path)) now,
    raw_data := raw }

end DataLakeTransformer

theorem transformed_records_length (raw : RawData) (source now : String) :
    ((convertToDataFrame raw).standardize).toRecords.length =
      (generateMetadata raw source now).record_count := by
  rw [DataFrame.length_toRecords, rows_length_standardize]
  cases raw <;> simp [convertToDataFrame, generateMetadata]

/-- C1: for every `TransformedBatch` returned by `transform_api_data`,
`transform_database_data` or `transform_file_data`, the `records` list
length equals `metadata.recordCount`, which is 1 for a single-mapping
payload and the row count for a tabular payload. -/
theorem C1_records_length_eq_recordCount :
    (∀ raw base_url endpoint now,
      (DataLakeTransformer.transform_api_data raw base_url endpoint now).data.length =
        (DataLakeTransformer.transform_api_data raw base_url endpoint now).metadata.record_count) ∧
    (∀ raw source_name now,
      (DataLakeTransformer.transform_database_data raw source_name now).data.length =
        (DataLakeTransformer.transform_database_data raw source_name now).metadata.record_count) ∧
    (∀ raw file_path source_name now,
      (DataLakeTransformer.transform_file_data raw file_path source_name now).data.length =
        (DataLakeTransformer.transform_file_data raw file_path source_name now).metadata.record_count) ∧
    (∀ raw base_url endpoint now,
      (DataLakeTransformer.transform_api_data raw base_url endpoint now).metadata.record_count =
        match raw with | .rows rs => rs.length | .single _ => 1) := by
  refine ⟨fun raw u e now => ?_, fun raw s now => ?_, fun raw p s now => ?_, fun raw u e now => ?_⟩
  · exact transformed_records_length raw _ now
  · exact transformed_records_length raw _ now
  · exact transformed_records_length raw _ now
  · cases raw <;> rfl

/-! ### `DataQualityTransformer` (`data_quality_transformer.py`) -/

/-- The 0/1 null indicator underlying `df[col].isnull().mean()`. -/
def isnullIndicator (v : PyVal) : ℚ := if v = .null then 1 else 0

/-- `DataQualityTransformer._calculate_quality_metrics`: raises on an empty
frame, otherwise builds per-column completeness (`1 - isnull().mean()`) and
uniqueness (`nunique() / max(1, len(df))`; `nunique` counts distinct
non-null values).  The `len(df) == 0` early return of the source survives
as the (dead) second branch. -/
def calculateQualityMetrics (df : DataFrame) : Except String QualityMetrics :=
  if df.empty then .error "Cannot calculate metrics for empty DataFrame"
  else if df.rows.length = 0 then .ok ⟨[], []⟩
  else .ok
    { completeness := df.cols.map (fun c =>
        (c, 1 - ((df.getCol c).map isnullIndicator).sum / ((df.getCol c).length : ℚ))),
      uniqueness := df.cols.map (fun c =>
        (c, ((((df.getCol c).filter (fun v => v ≠ .null)).dedup).length : ℚ) /
          ((max 1 df.rows.length : ℕ) : ℚ))) }

namespace DataQualityTransformer

/-- `DataQualityTransformer.transform_database_data`: run the base pipeline,
then attach quality metrics when the frame is non-empty, else attach empty
metric maps. -/
def transform_database_data (raw : RawData) (source_name now : String) :
    Except String TransformedData :=
  let d := DataLakeTransformer.transform_database_data raw source_name now
  let df := mkDataFrame d.data
  if !df.empty then
    match calculateQualityMetrics df with
    | .ok qm => .ok { d with metadata := { d.metadata with quality_metrics := some qm } }
    | .error e => .error e
  else
    .ok { d with metadata := { d.metadata with quality_metrics := some ⟨[], []⟩ } }

end DataQualityTransformer

/-! ### `BusinessRulesTransformer` (`bussiness_rules_transformer.py`) -/

namespace BusinessRulesTransformer

/-- `_get_exchange_rate`: fixed rate table keyed by target-currency code;
unknown codes raise `ValueError("Unsupported currency: ...")`. -/
def getExchangeRate (currency : String) : Except String ℚ :=
  let rates : List (String × ℚ) := [("USD", 1), ("EUR", 17/20), ("GBP", 3/4), ("JPY", 110)]
  match rates.lookup currency with
  | none => .error ("Unsupported currency: " ++ currency)
  | some r => .ok r

/-- One cell of `df["price"] * rate` (non-numeric cells never occur in the
verified claims — pandas would raise on them; modelled as `null`). -/
def convertPrice (rate : ℚ) : PyVal → PyVal
  | .num q => .num (q * rate)
  | _ => .null

/-- `_apply_business_rules`: if a `price` column exists and the rules
configure `convert_currency`, look up the rate and add `price_usd`; a
`ValueError` from the rate lookup is caught and logged, leaving the frame
unchanged. -/
def applyBusinessRules (rules : List (String × List (String × String)))
    (df : DataFrame) : DataFrame :=
  match ((rules.lookup "price").getD []).lookup "convert_currency" with
  | some target =>
    if "price" ∈ df.cols then
      match getExchangeRate target with
      | .ok rate => df.setCol "price_usd" ((df.getCol "price").map (convertPrice rate))
      | .error _ => df
    else df
  | none => df

end BusinessRulesTransformer

/-- C6: with the fixed rate table (EUR = 0.85), a batch with `price = 100`
and `convert_currency = "EUR"` gains a `price_usd` column equal to `85.0`;
an unknown code `"XXX"` makes the rate lookup fail with
`UnsupportedCurrency` and the stage leaves the frame — in particular the
`price` column — unchanged (the error is caught, not fatal to the batch). -/
theorem C6_business_rules_currency :
    BusinessRulesTransformer.getExchangeRate "EUR" = .ok (17/20) ∧
    BusinessRulesTransformer.applyBusinessRules [("price", [("convert_currency", "EUR")])]
        ⟨["price"], [[("price", .num 100)]]⟩ =
      ⟨["price", "price_usd"], [[("price", .num 100), ("price_usd", .num 85)]]⟩ ∧
    BusinessRulesTransformer.getExchangeRate "XXX" =
      .error "Unsupported currency: XXX" ∧
    ∀ df, BusinessRulesTransformer.applyBusinessRules
        [("price", [("convert_currency", "XXX")])] df = df := by
  refine ⟨rfl, ?_, rfl, fun df => ?_⟩
  · simp [BusinessRulesTransformer.applyBusinessRules,
      BusinessRulesTransformer.getExchangeRate, DataFrame.setCol, DataFrame.getCol,
      setKV, List.lookup]
    show BusinessRulesTransformer.convertPrice (17 / 20) (PyVal.num 100) = PyVal.num 85
    simp [BusinessRulesTransformer.convertPrice]
    norm_num
  · simp [BusinessRulesTransformer.applyBusinessRules,
      BusinessRulesTransformer.getExchangeRate, List.lookup]

/-! ### `PrivateTransform` (`private_transform.py`) and
`MedicalDataTransformer._anonymize_data` (`medical_transformer.py`) -/

/-- The SHA-256 hex digest, modelled as an unspecified deterministic
function of its input string (the claims depend only on determinism). -/
def sha256hex (s : String) : String := "sha256:" ++ s

/-- `lambda x: hashlib.sha256(str(x).encode()).hexdigest() if pd.notnull(x)
else x`. -/
def hashVal (v : PyVal) : PyVal :=
  if v = .null then v else .str (sha256hex (pyStr v))

namespace PrivateTransform

/-- `PrivateTransform.hash_sensitive_data`: for each configured sensitive
field present in the frame, apply the hash lambda to the column. -/
def hash_sensitive_data (fields : List String) (df : DataFrame) : DataFrame :=
  fields.foldl
    (fun d f => if f ∈ d.cols then d.setCol f ((d.getCol f).map hashVal) else d) df

end PrivateTransform

namespace MedicalDataTransformer

/-- `MedicalDataTransformer._anonymize_data`: the same loop as
`hash_sensitive_data`, over `self.anonymize_fields`. -/
def anonymize_data (fields : List String) (df : DataFrame) : DataFrame :=
  fields.foldl
    (fun d f => if f ∈ d.cols then d.setCol f ((d.getCol f).map hashVal) else d) df

end MedicalDataTransformer

theorem hash_sensitive_data_characterization (fields : List String) :
    ∀ (df : DataFrame), fields.Nodup →
      (PrivateTransform.hash_sensitive_data fields df).cols = df.cols ∧
      (PrivateTransform.hash_sensitive_data fields df).rows.length = df.rows.length ∧
      ∀ c, (c ∈ fields → c ∈ df.cols →
          (PrivateTransform.hash_sensitive_data fields df).getCol c =
            (df.getCol c).map hashVal) ∧
        ((c ∉ fields ∨ c ∉ df.cols) →
          (PrivateTransform.hash_sensitive_data fields df).getCol c = df.getCol c) := by
  induction fields with
  | nil => intro df _; exact ⟨rfl, rfl, fun c => ⟨fun h => absurd h (by simp), fun _ => rfl⟩⟩
  | cons f rest ih =>
    intro df hnd
    have hf : f ∉ rest := (List.nodup_cons.mp hnd).1
    have hrest : rest.Nodup := (List.nodup_cons.mp hnd).2
    by_cases hmem : f ∈ df.cols
    · have hlen : ((df.getCol f).map hashVal).length = df.rows.length := by simp
      set d' := df.setCol f ((df.getCol f).map hashVal) with hd'
      have hcols : d'.cols = df.cols := DataFrame.cols_setCol_of_mem hmem _
      have hrows : d'.rows.length = df.rows.length :=
        DataFrame.rows_length_setCol df f _ hlen
      have hstep : PrivateTransform.hash_sensitive_data (f :: rest) df =
          PrivateTransform.hash_sensitive_data rest d' := by
        simp [PrivateTransform.hash_sensitive_data, hmem, hd']
      obtain ⟨ih1, ih2, ih3⟩ := ih d' hrest
      refine ⟨by rw [hstep, ih1, hcols], by rw [hstep, ih2, hrows], fun c => ⟨?_, ?_⟩⟩
      · intro hc hcdf
        rcases List.mem_cons.mp hc with hceq | hcr
        · subst hceq
          rw [hstep, (ih3 c).2 (Or.inl hf)]
          exact DataFrame.getCol_setCol_self df c _ hlen
        · have hcne : c ≠ f := fun he => hf (he ▸ hcr)
          rw [hstep, (ih3 c).1 hcr (hcols ▸ hcdf)]
          rw [DataFrame.getCol_setCol_ne df f c _ hlen hcne]
      · intro hc
        rcases hc with hc | hc
        · have hcr : c ∉ rest := fun h => hc (List.mem_cons_of_mem f h)
          have hcne : c ≠ f := fun he => hc (he ▸ List.mem_cons_self f rest)
          rw [hstep, (ih3 c).2 (Or.inl hcr)]
          exact DataFrame.getCol_setCol_ne df f c _ hlen hcne
        · by_cases hcne : c = f
          · subst hcne
            exact absurd hmem hc
          · rw [hstep, (ih3 c).2 (Or.inr (hcols ▸ hc))]
            exact DataFrame.getCol_setCol_ne df f c _ hlen hcne
    · have hstep : PrivateTransform.hash_sensitive_data (f :: rest) df =
          PrivateTransform.hash_sensitive_data rest df := by
        simp [PrivateTransform.hash_sensitive_data, hmem]
      obtain ⟨ih1, ih2, ih3⟩ := ih df hrest
      refine ⟨by rw [hstep, ih1], by rw [hstep, ih2], fun c => ⟨?_, ?_⟩⟩
      · intro hc hcdf
        rcases List.mem_cons.mp hc with hceq | hcr
        · subst hceq; exact absurd hcdf hmem
        · rw [hstep]; exact (ih3 c).1 hcr hcdf
      · intro hc
        rcases hc with hc | hc
        · rw [hstep]
          exact (ih3 c).2 (Or.inl (fun h => hc (List.mem_cons_of_mem f h)))
        · rw [hstep]; exact (ih3 c).2 (Or.inr hc)

/-- C7: for every configured sensitive field, anonymization replaces each
non-null value with a deterministic hash of its string form (so equal
values hash equally), leaves nulls null, skips absent configured fields
without error and touches no other column; the medical transformer's
`_anonymize_data` is the same transformation. -/
theorem C7_anonymization_hashes_sensitive_fields (fields : List String)
    (df : DataFrame) (hnd : fields.Nodup) :
    (∀ f ∈ fields, f ∈ df.cols →
      (PrivateTransform.hash_sensitive_data fields df).getCol f =
        (df.getCol f).map hashVal) ∧
    (∀ f ∈ fields, ∀ i j : Nat, (df.getCol f)[i]? = (df.getCol f)[j]? →
      ((PrivateTransform.hash_sensitive_data fields df).getCol f)[i]? =
        ((PrivateTransform.hash_sensitive_data fields df).getCol f)[j]?) ∧
    (∀ f ∈ fields, ∀ i : Nat, (df.getCol f)[i]? = some .null →
      ((PrivateTransform.hash_sensitive_data fields df).getCol f)[i]? =
        some .null) ∧
    (∀ c, c ∉ fields →
      (PrivateTransform.hash_sensitive_data fields df).getCol c = df.getCol c) ∧
    (PrivateTransform.hash_sensitive_data fields df).cols = df.cols ∧
    (∀ fields2 df2, MedicalDataTransformer.anonymize_data fields2 df2 =
      PrivateTransform.hash_sensitive_data fields2 df2) := by
  obtain ⟨hcols0, _, hchar⟩ := hash_sensitive_data_characterization fields df hnd
  have hcase : ∀ f ∈ fields,
      (PrivateTransform.hash_sensitive_data fields df).getCol f =
        (df.getCol f).map hashVal ∨
      (PrivateTransform.hash_sensitive_data fields df).getCol f = df.getCol f := by
    intro f hf
    by_cases hin : f ∈ df.cols
    · exact Or.inl ((hchar f).1 hf hin)
    · exact Or.inr ((hchar f).2 (Or.inr hin))
  refine ⟨fun f hf hin => (hchar f).1 hf hin, ?_, ?_,
    fun c hc => (hchar c).2 (Or.inl hc), hcols0, fun _ _ => rfl⟩
  · intro f hf i j hij
    rcases hcase f hf with h | h <;> rw [h]
    · simp only [List.getElem?_map, hij]
    · exact hij
  · intro f hf i hnull
    rcases hcase f hf with h | h <;> rw [h]
    · simp only [List.getElem?_map, hnull, Option.map_some]
      simp [hashVal]
    · exact hnull

/-- Witness for C7: with `sensitiveFields = ["ssn"]`, two rows sharing an
`ssn` value receive the same hashed output, and a null `ssn` stays null. -/
theorem C7_anonymization_witness :
    (["ssn"] : List String).Nodup ∧
    ((PrivateTransform.hash_sensitive_data ["ssn"]
        ⟨["ssn"], [[("ssn", .str "123")], [("ssn", .str "123")], [("ssn", .null)]]⟩).getCol
          "ssn")[0]? =
      ((PrivateTransform.hash_sensitive_data ["ssn"]
        ⟨["ssn"], [[("ssn", .str "123")], [("ssn", .str "123")], [("ssn", .null)]]⟩).getCol
          "ssn")[1]? ∧
    ((PrivateTransform.hash_sensitive_data ["ssn"]
        ⟨["ssn"], [[("ssn", .str "123")], [("ssn", .str "123")], [("ssn", .null)]]⟩).getCol
          "ssn")[2]? = some .null := by
  have hnd : (["ssn"] : List String).Nodup := by decide
  have h := C7_anonymization_hashes_sensitive_fields ["ssn"]
    ⟨["ssn"], [[("ssn", .str "123")], [("ssn", .str "123")], [("ssn", .null)]]⟩ hnd
  exact ⟨hnd, h.2.1 "ssn" (by decide) 0 1 (by decide), h.2.2.1 "ssn" (by decide) 2 (by decide)⟩

theorem sum_isnullIndicator (c : List PyVal) :
    (c.map isnullIndicator).sum = ((c.filter (fun v => v = .null)).length : ℚ) := by
  induction c with
  | nil => simp
  | cons v t ih =>
    by_cases h : v = .null <;>
      simp [isnullIndicator, h, ih, List.filter_cons]
    push_cast
    ring

/-- C5: the quality stage computes per-column
`completeness = 1 - nullCount/rowCount` and
`uniqueness = distinctCount / max(1, rowCount)`; invoked on a zero-row
frame (in particular one from a non-empty source) the metrics function
fails with the `EmptyBatch` error, while a pipeline run on a raw payload
that is empty by design attaches empty metric maps. -/
theorem C5_quality_metrics :
    (∀ df : DataFrame, df.rows.length = 0 →
      calculateQualityMetrics df =
        .error "Cannot calculate metrics for empty DataFrame") ∧
    (∀ source_name now,
      DataQualityTransformer.transform_database_data (.rows []) source_name now =
        .ok { data := [],
              metadata := { generateMetadata (.rows []) source_name now with
                            quality_metrics := some ⟨[], []⟩ },
              raw_data := .rows [] }) ∧
    (∀ df qm, calculateQualityMetrics df = .ok qm →
      qm.completeness = df.cols.map (fun c =>
        (c, 1 - (((df.getCol c).filter (fun v => v = .null)).length : ℚ) /
          (df.rows.length : ℚ))) ∧
      qm.uniqueness = df.cols.map (fun c =>
        (c, ((((df.getCol c).filter (fun v => v ≠ .null)).dedup).length : ℚ) /
          ((max 1 df.rows.length : ℕ) : ℚ)))) := by
  refine ⟨fun df h => ?_, fun source_name now => rfl, fun df qm h => ?_⟩
  · have : df.empty = true := by
      simp only [DataFrame.empty, Bool.or_eq_true, List.isEmpty_iff]
      exact Or.inl (List.length_eq_zero.mp h)
    simp [calculateQualityMetrics, this]
  · by_cases hempty : df.empty = true
    · simp [calculateQualityMetrics, hempty] at h
    · have hrows : df.rows.length ≠ 0 := by
        intro hz
        apply hempty
        simp only [DataFrame.empty, Bool.or_eq_true, List.isEmpty_iff]
        exact Or.inl (List.length_eq_zero.mp hz)
      simp only [calculateQualityMetrics, hempty, Bool.false_eq_true, if_false,
        hrows, Except.ok.injEq] at h
      subst h
      refine ⟨?_, rfl⟩
      apply List.map_congr_left
      intro c _
      rw [sum_isnullIndicator, DataFrame.length_getCol]

/-- Witness for C5: a two-row frame gets completeness 1/2 and uniqueness
1/2 for its half-null column, and a zero-row frame makes the metrics
function fail. -/
theorem C5_quality_witness :
    (⟨["a"], []⟩ : DataFrame).rows.length = 0 ∧
    calculateQualityMetrics ⟨["a"], []⟩ =
      .error "Cannot calculate metrics for empty DataFrame" ∧
    calculateQualityMetrics ⟨["a"], [[("a", .num 1)], [("a", .null)]]⟩ =
      .ok ⟨[("a", 1 - 1 / 2)], [("a", 1 / 2)]⟩ ∧
    (⟨[("a", 1 - 1 / 2)], [("a", 1 / 2)]⟩ : QualityMetrics).completeness =
      (⟨["a"], [[("a", .num 1)], [("a", .null)]]⟩ : DataFrame).cols.map (fun c =>
        (c, 1 - ((((⟨["a"], [[("a", .num 1)], [("a", .null)]]⟩ : DataFrame).getCol c).filter
          (fun v => v = .null)).length : ℚ) / 2)) := by
  have h1 := C5_quality_metrics.1 ⟨["a"], []⟩ rfl
  have hok : calculateQualityMetrics ⟨["a"], [[("a", .num 1)], [("a", .null)]]⟩ =
      .ok ⟨[("a", 1 - 1 / 2)], [("a", 1 / 2)]⟩ := by
    simp [calculateQualityMetrics, DataFrame.empty, DataFrame.getCol,
      isnullIndicator, List.lookup, List.filter, List.dedup, List.insert]
  have h3 := (C5_quality_metrics.2.2 _ _ hok).1
  exact ⟨rfl, h1, hok, by simpa using h3⟩

/-! ### Python integer parsing (kernel-computable model of `int(str)`) -/

/-- Accumulate decimal digits. -/
def digitsToNat? (ds : List Char) : Option Nat :=
  ds.foldl (fun acc c =>
    acc.bind (fun n => if c.isDigit then some (n * 10 + (c.toNat - 48)) else none))
    (some 0)

/-- Model of Python `int(s)` on literals: optional sign plus decimal digits,
`none` on anything else. -/
def pyInt? (s : String) : Option Int :=
  match s.data with
  | [] => none
  | '-' :: ds => if ds.isEmpty then none else (digitsToNat? ds).map (fun n => -(n : Int))
  | ds => if ds.isEmpty then none else (digitsToNat? ds).map (fun n => (n : Int))

/-! ### `SchemaEnforcerTransformer` (`utils/sche,a_enforce_transformer.py`) -/

/-- The dtype names the schema maps columns to (source example:
`{"id": "int", "name": "str", "timestamp": "datetime"}`). -/
inductive DType where
  | int | float | str | datetime
deriving DecidableEq

/-- `int()` truncation toward zero. -/
def truncQ (q : ℚ) : Int := if 0 ≤ q then q.floor else q.ceil

/-- One cell under `astype(dtype)` (claims only exercise integer literals;
fractional strings and exotic cells fail). -/
def castVal : DType → PyVal → Option PyVal
  | .int, .num q => some (.num (truncQ q))
  | .int, .str s => (pyInt? s).map (fun n => .num (n : ℚ))
  | .int, .bool b => some (.num (if b then 1 else 0))
  | .int, _ => none
  | .float, .num q => some (.num q)
  | .float, .str s => (pyInt? s).map (fun n => .num (n : ℚ))
  | .float, .bool b => some (.num (if b then 1 else 0))
  | .float, .null => some .null
  | .float, _ => none
  | .str, v => some (.str (pyStr v))
  | .datetime, _ => none

/-- `col.astype(dtype, errors='ignore')`: all-or-nothing column conversion,
original column kept when any cell fails. -/
def astypeCol (t : DType) (col : List PyVal) : List PyVal :=
  let p := col.map (castVal t)
  if p.all Option.isSome then p.map (fun o => o.getD .null) else col

/-- `pd.to_datetime(col, errors='coerce')`: per-cell conversion, failures
become `NaT` (`null`).  (Numeric epoch interpretation is outside the
verified claims and coerces to `null` in the model.) -/
def toDatetimeCoerce (col : List PyVal) : List PyVal :=
  col.map (fun v => match v with
    | .ts t => .ts t
    | .str s => match parseTimestampStr s with | some t => .ts t | none => .null
    | _ => .null)

/-- The coercion `_enforce_schema` applies to one present column. -/
def coerceColumn (t : DType) (col : List PyVal) : List PyVal :=
  if t = .datetime then toDatetimeCoerce col else astypeCol t col

namespace SchemaEnforcerTransformer

/-- `SchemaEnforcerTransformer._enforce_schema`: iterate the schema in
order; raise `ValueError("Missing required column: ...")` at the first
absent column, otherwise coerce the column in place and continue.  The
returned frame is the (mutated-in-place) state when the loop stops, paired
with the error, if any. -/
def enforceSchema (schema : List (String × DType)) (df : DataFrame) :
    DataFrame × Option String :=
  match schema with
  | [] => (df, none)
  | (c, t) :: rest =>
    if c ∈ df.cols then
      enforceSchema rest (df.setCol c (coerceColumn t (df.getCol c)))
    else (df, some ("Missing required column: " ++ c))

/-- The coercions of a schema prefix, applied in order (the state
`_enforce_schema` has built when it stops). -/
def applyCoercions (schema : List (String × DType)) (df : DataFrame) : DataFrame :=
  schema.foldl (fun d p => d.setCol p.1 (coerceColumn p.2 (d.getCol p.1))) df

end SchemaEnforcerTransformer

/-- C3 counterexample: with schema `{"id": int, "created": datetime}` and a
batch having `id` (as the string `"1"`) but missing `created`, enforcement
does fail naming the first missing column — but the `id` column has already
been coerced to a number when it fails, so "zero columns coerced" is false. -/
theorem C3_coercion_before_missing_check :
    SchemaEnforcerTransformer.enforceSchema [("id", .int), ("created", .datetime)]
        ⟨["id"], [[("id", .str "1")]]⟩ =
      (⟨["id"], [[("id", .num 1)]]⟩, some "Missing required column: created") ∧
    (⟨["id"], [[("id", .num 1)]]⟩ : DataFrame) ≠ ⟨["id"], [[("id", .str "1")]]⟩ := by
  constructor
  · show SchemaEnforcerTransformer.enforceSchema _ _ = _
    simp [SchemaEnforcerTransformer.enforceSchema, DataFrame.setCol, DataFrame.getCol,
      coerceColumn, astypeCol, castVal, pyInt?, digitsToNat?, setKV, List.lookup]
  · decide

/-- C3 (amended): when some configured column is missing, `_enforce_schema`
fails with an error naming the first missing column in schema order, and
the frame at that point has had exactly the coercions of the schema entries
preceding that column applied — zero columns are coerced only when the
first missing column is the first schema entry. -/
theorem C3_enforceSchema_first_missing (schema : List (String × DType)) :
    ∀ (df : DataFrame) (c : String) (t : DType) (rest : List (String × DType)),
      schema.dropWhile (fun p => decide (p.1 ∈ df.cols)) = (c, t) :: rest →
      SchemaEnforcerTransformer.enforceSchema schema df =
        (SchemaEnforcerTransformer.applyCoercions
          (schema.takeWhile (fun p => decide (p.1 ∈ df.cols))) df,
         some ("Missing required column: " ++ c)) := by
  induction schema with
  | nil => intro df c t rest h; simp [List.dropWhile] at h
  | cons p0 rest0 ih =>
    intro df c t rest h
    obtain ⟨c0, t0⟩ := p0
    by_cases hc0 : c0 ∈ df.cols
    · rw [List.dropWhile_cons] at h
      simp only [hc0, decide_eq_true_eq, if_true] at h
      rw [List.takeWhile_cons]
      simp only [hc0, decide_eq_true_eq, if_true]
      have hcols : (df.setCol c0 (coerceColumn t0 (df.getCol c0))).cols = df.cols :=
        DataFrame.cols_setCol_of_mem hc0 _
      have h' : rest0.dropWhile (fun p => decide (p.1 ∈
          (df.setCol c0 (coerceColumn t0 (df.getCol c0))).cols)) = (c, t) :: rest := by
        rw [hcols]; exact h
      have := ih (df.setCol c0 (coerceColumn t0 (df.getCol c0))) c t rest h'
      simp only [SchemaEnforcerTransformer.enforceSchema, hc0, if_true]
      rw [this, hcols]
      rfl
    · rw [List.dropWhile_cons] at h
      simp only [hc0, decide_eq_false_iff_not, if_false] at h
      rw [List.takeWhile_cons]
      simp only [hc0, decide_eq_false_iff_not, if_false]
      obtain ⟨he, _⟩ := List.cons.inj h
      obtain ⟨hec, _⟩ := Prod.mk.inj he
      subst hec
      simp [SchemaEnforcerTransformer.enforceSchema, hc0,
        SchemaEnforcerTransformer.applyCoercions]

/-- Witness for C3 (amended): the counterexample instance, where the first
missing column is `created` and the preceding `id` entry has been coerced. -/
theorem C3_enforceSchema_witness :
    ([("id", DType.int), ("created", DType.datetime)].dropWhile
      (fun p => decide (p.1 ∈ (⟨["id"], [[("id", .str "1")]]⟩ : DataFrame).cols)) =
      [("created", DType.datetime)]) ∧
    SchemaEnforcerTransformer.enforceSchema [("id", .int), ("created", .datetime)]
        ⟨["id"], [[("id", .str "1")]]⟩ =
      (SchemaEnforcerTransformer.applyCoercions
        ([("id", DType.int), ("created", DType.datetime)].takeWhile
          (fun p => decide (p.1 ∈ (⟨["id"], [[("id", .str "1")]]⟩ : DataFrame).cols)))
        ⟨["id"], [[("id", .str "1")]]⟩,
       some "Missing required column: created") := by
  have hd : [("id", DType.int), ("created", DType.datetime)].dropWhile
      (fun p => decide (p.1 ∈ (⟨["id"], [[("id", .str "1")]]⟩ : DataFrame).cols)) =
      [("created", DType.datetime)] := by decide
  exact ⟨hd, C3_enforceSchema_first_missing _ _ _ DType.datetime _ hd⟩

/-! ### Data-lake persistence (`save_to_raw_zone`,
`UniversalDataTransformer.save_to_data_lake`) -/

/-- What a save writes into a file: a data payload in one of the three
serializations, or the metadata sidecar. -/
inductive FileContent where
  | parquet (df : DataFrame)
  | jsonRecords (df : DataFrame)
  | csv (df : DataFrame)
  | metadataJson (m : Metadata)
deriving DecidableEq

/-- One reified file write. -/
structure FileWrite where
  path : String
  content : FileContent
deriving DecidableEq

/-- `"".join(c if c.isalnum() else "_" for c in name)`. -/
def cleanName (s : String) : String :=
  String.mk (s.data.map (fun c => if c.isAlphanum then c else '_'))

/-- Prefix test on character lists. -/
def isPrefixList : List Char → List Char → Bool
  | [], _ => true
  | _ :: _, [] => false
  | a :: as, b :: bs => a = b && isPrefixList as bs

/-- Replace every occurrence of `pat` (non-empty in all uses) going left to
right; `fuel` bounds the scan. -/
def replaceChars (pat repl : List Char) : Nat → List Char → List Char
  | 0, rest => rest
  | _ + 1, [] => []
  | fuel + 1, c :: rest =>
    if isPrefixList pat (c :: rest) then
      repl ++ replaceChars pat repl fuel ((c :: rest).drop pat.length)
    else c :: replaceChars pat repl fuel rest

/-- Model of Python `str.replace` (kernel-computable). -/
def pyReplace (s pat repl : String) : String :=
  String.mk (replaceChars pat.data repl.data s.data.length s.data)

namespace DataLakeTransformer

/-- `DataLakeTransformer.save_to_raw_zone`: dispatch on the format name,
raising `ValueError("Unsupported format: ...")` before any write for an
unknown format; on success the data file is written and then the metadata
sidecar in the same directory. -/
def save_to_raw_zone (td : TransformedData) (storage_path fmt ts : String) :
    List FileWrite × Except String String :=
  let clean := cleanName td.metadata.source_system
  let output_path := storage_path ++ "/" ++ clean ++ "/" ++ ts ++ "/data." ++ fmt
  let metadata_path := storage_path ++ "/" ++ clean ++ "/" ++ ts ++ "/metadata.json"
  let df := mkDataFrame td.data
  if fmt = "parquet" then
    ([⟨output_path, .parquet df⟩, ⟨metadata_path, .metadataJson td.metadata⟩],
     .ok output_path)
  else if fmt = "json" then
    ([⟨output_path, .jsonRecords df⟩, ⟨metadata_path, .metadataJson td.metadata⟩],
     .ok output_path)
  else if fmt = "csv" then
    ([⟨output_path, .csv df⟩, ⟨metadata_path, .metadataJson td.metadata⟩],
     .ok output_path)
  else ([], .error ("Unsupported format: " ++ fmt))

end DataLakeTransformer

/-- The `'data'`/`'metadata'`/`'source'` structure consumed by
`UniversalDataTransformer.save_to_data_lake`. -/
structure UTransformedData where
  data : List Rec
  metadata : Metadata
  source : List (String × String)
deriving DecidableEq

namespace UniversalDataTransformer

/-- `source_info.get('source_name', source_info.get('endpoint', 'unknown'))`. -/
def sourceName (info : List (String × String)) : String :=
  (info.lookup "source_name").getD ((info.lookup "endpoint").getD "unknown")

/-- `df.drop(columns=cs)` (caller checks the labels exist). -/
def dropCols (df : DataFrame) (cs : List String) : DataFrame :=
  { cols := df.cols.filter (fun c => decide (c ∉ cs)),
    rows := df.rows.map (fun r => r.filter (fun kv => decide (kv.1 ∉ cs))) }

/-- `UniversalDataTransformer._save_partitioned`: builds `col=value` path
segments from the first row, then always writes parquet — the requested
format only names the file.  `iloc[0]` on an empty frame and `df.drop` with
a missing label raise. -/
def savePartitioned (df : DataFrame) (storage_path src_clean fmt : String)
    (partition_cols : List String) : List FileWrite × Except String String :=
  let present := partition_cols.filter (fun c => decide (c ∈ df.cols))
  if present ≠ [] ∧ df.rows = [] then
    ([], .error "single positional indexer is out-of-bounds")
  else
    let pvals := present.map (fun c =>
      c ++ "=" ++ pyStr (((df.rows.headD []).lookup c).getD .null))
    let output_path := storage_path ++ "/" ++ src_clean ++ "/" ++
      String.intercalate "/" pvals ++ "/data." ++ fmt
    if partition_cols.all (fun c => decide (c ∈ df.cols)) then
      ([⟨output_path, .parquet (dropCols df partition_cols)⟩], .ok output_path)
    else ([], .error "KeyError: labels not found in axis")

/-- `UniversalDataTransformer._save_non_partitioned`: format dispatch table;
unknown format raises `ValueError("Unsupported format: ...")` before any
write. -/
def saveNonPartitioned (df : DataFrame) (storage_path src_clean fmt ts : String) :
    List FileWrite × Except String String :=
  let output_path := storage_path ++ "/" ++ src_clean ++ "/" ++ ts ++ "/data." ++ fmt
  if fmt = "parquet" then ([⟨output_path, .parquet df⟩], .ok output_path)
  else if fmt = "json" then ([⟨output_path, .jsonRecords df⟩], .ok output_path)
  else if fmt = "csv" then ([⟨output_path, .csv df⟩], .ok output_path)
  else ([], .error ("Unsupported format: " ++ fmt))

/-- `UniversalDataTransformer.save_to_data_lake`: choose the partitioned or
non-partitioned handler (`partition_cols` truthy = non-empty), then write
the metadata sidecar next to the data file on success. -/
def save_to_data_lake (td : UTransformedData) (storage_path fmt : String)
    (partition_cols : List String) (ts : String) :
    List FileWrite × Except String String :=
  let df := mkDataFrame td.data
  let clean := cleanName (sourceName td.source)
  let res := if partition_cols ≠ [] then
      savePartitioned df storage_path clean fmt partition_cols
    else saveNonPartitioned df storage_path clean fmt ts
  match res.2 with
  | .ok output_path =>
    (res.1 ++ [⟨pyReplace output_path ("data." ++ fmt) "metadata.json",
       .metadataJson td.metadata⟩], .ok output_path)
  | .error e => (res.1, .error e)

end UniversalDataTransformer

/-- C4 counterexample: with partition columns supplied, an unsupported
format `"xml"` does NOT fail — `_save_partitioned` ignores the format,
writes a columnar-binary data file named `data.xml` and the metadata
sidecar, and returns success. -/
theorem C4_partitioned_ignores_format :
    UniversalDataTransformer.save_to_data_lake
        ⟨[[("org", .str "A"), ("x", .num 1)]],
         ⟨"T0Z", "SRC", "h", 1, "1.0", none⟩,
         [("source_name", "S")]⟩
        "lake" "xml" ["org"] "t" =
      ([⟨"lake/S/org=A/data.xml",
          .parquet ⟨["x"], [[("x", .num 1)]]⟩⟩,
        ⟨"lake/S/org=A/metadata.json",
          .metadataJson ⟨"T0Z", "SRC", "h", 1, "1.0", none⟩⟩],
       .ok "lake/S/org=A/data.xml") := by
  rfl

theorem UniversalDataTransformer.savePartitioned_ok (df : DataFrame)
    (storage_path src_clean fmt : String) (partition_cols : List String)
    (hmem : ∀ c ∈ partition_cols, c ∈ df.cols) (hrows : df.rows ≠ []) :
    ∃ p, UniversalDataTransformer.savePartitioned df storage_path src_clean fmt
        partition_cols =
      ([⟨p, .parquet (UniversalDataTransformer.dropCols df partition_cols)⟩], .ok p) := by
  have hall : partition_cols.all (fun c => decide (c ∈ df.cols)) = true := by
    rw [List.all_eq_true]
    intro c hc
    exact decide_eq_true (hmem c hc)
  refine ⟨storage_path ++ "/" ++ src_clean ++ "/" ++ String.intercalate "/"
    ((partition_cols.filter (fun c => decide (c ∈ df.cols))).map (fun c =>
      c ++ "=" ++ pyStr (((df.rows.headD []).lookup c).getD .null))) ++
      "/data." ++ fmt, ?_⟩
  simp [UniversalDataTransformer.savePartitioned, hrows, hall]

theorem C4_unsupported_raw_zone (td : TransformedData) (storage_path fmt ts : String)
    (h : fmt ∉ (["parquet", "json", "csv"] : List String)) :
    DataLakeTransformer.save_to_raw_zone td storage_path fmt ts =
      ([], .error ("Unsupported format: " ++ fmt)) := by
  have h1 : fmt ≠ "parquet" := fun he => h (by simp [he])
  have h2 : fmt ≠ "json" := fun he => h (by simp [he])
  have h3 : fmt ≠ "csv" := fun he => h (by simp [he])
  simp [DataLakeTransformer.save_to_raw_zone, h1, h2, h3]

/-- C4 (amended): an unsupported format fails with `UnsupportedFormat` and
nothing is written on the non-partitioned paths (`save_to_raw_zone` and
`_save_non_partitioned`, hence `save_to_data_lake` without partition
columns); but when partition columns are supplied (present in the batch,
non-empty batch), the partitioned path ignores the requested format and
writes a columnar-binary data file plus the metadata sidecar, succeeding
for every format string. -/
theorem C4_unsupported_format_paths :
    (∀ (td : TransformedData) (storage_path fmt ts : String),
      fmt ∉ (["parquet", "json", "csv"] : List String) →
      DataLakeTransformer.save_to_raw_zone td storage_path fmt ts =
        ([], .error ("Unsupported format: " ++ fmt))) ∧
    (∀ (td : UTransformedData) (storage_path fmt ts : String),
      fmt ∉ (["parquet", "json", "csv"] : List String) →
      UniversalDataTransformer.save_to_data_lake td storage_path fmt [] ts =
        ([], .error ("Unsupported format: " ++ fmt))) ∧
    (∀ (td : UTransformedData) (storage_path fmt : String)
       (partition_cols : List String) (ts : String),
      partition_cols ≠ [] →
      (∀ c ∈ partition_cols, c ∈ (mkDataFrame td.data).cols) →
      (mkDataFrame td.data).rows ≠ [] →
      (UniversalDataTransformer.save_to_data_lake td storage_path fmt
          partition_cols ts).2.isOk = true ∧
      (UniversalDataTransformer.save_to_data_lake td storage_path fmt
          partition_cols ts).1.length = 2) := by
  refine ⟨C4_unsupported_raw_zone, fun td sp fmt ts h => ?_, fun td sp fmt pc ts hpc hmem hrows => ?_⟩
  · have h1 : fmt ≠ "parquet" := fun he => h (by simp [he])
    have h2 : fmt ≠ "json" := fun he => h (by simp [he])
    have h3 : fmt ≠ "csv" := fun he => h (by simp [he])
    simp [UniversalDataTransformer.save_to_data_lake,
      UniversalDataTransformer.saveNonPartitioned, h1, h2, h3]
  · obtain ⟨p, hp⟩ := UniversalDataTransformer.savePartitioned_ok
      (mkDataFrame td.data) sp (cleanName (UniversalDataTransformer.sourceName td.source))
      fmt pc hmem hrows
    simp only [UniversalDataTransformer.save_to_data_lake, hpc, ne_eq,
      not_false_iff, if_true, ite_true, hp]
    exact ⟨rfl, rfl⟩

/-- Witness for C4: the unsupported format `"xml"` makes both
non-partitioned paths fail having written nothing, while the partitioned
path succeeds and writes two files. -/
theorem C4_unsupported_format_witness :
    ("xml" ∉ (["parquet", "json", "csv"] : List String)) ∧
    DataLakeTransformer.save_to_raw_zone
        ⟨[], ⟨"T0Z", "SRC", "h", 0, "1.0", none⟩, .rows []⟩ "lake" "xml" "t" =
      ([], .error "Unsupported format: xml") ∧
    UniversalDataTransformer.save_to_data_lake
        ⟨[], ⟨"T0Z", "SRC", "h", 0, "1.0", none⟩, []⟩ "lake" "xml" [] "t" =
      ([], .error "Unsupported format: xml") ∧
    (UniversalDataTransformer.save_to_data_lake
        ⟨[[("org", .str "A"), ("x", .num 1)]], ⟨"T0Z", "SRC", "h", 1, "1.0", none⟩,
         [("source_name", "S")]⟩ "lake" "xml" ["org"] "t").2.isOk = true ∧
    (UniversalDataTransformer.save_to_data_lake
        ⟨[[("org", .str "A"), ("x", .num 1)]], ⟨"T0Z", "SRC", "h", 1, "1.0", none⟩,
         [("source_name", "S")]⟩ "lake" "xml" ["org"] "t").1.length = 2 := by
  have hfmt : ("xml" : String) ∉ (["parquet", "json", "csv"] : List String) := by decide
  have h3 := C4_unsupported_format_paths.2.2
    ⟨[[("org", .str "A"), ("x", .num 1)]], ⟨"T0Z", "SRC", "h", 1, "1.0", none⟩,
     [("source_name", "S")]⟩ "lake" "xml" ["org"] "t"
    (by decide) (by decide) (by decide)
  exact ⟨hfmt,
    C4_unsupported_format_paths.1 _ "lake" "xml" "t" hfmt,
    C4_unsupported_format_paths.2.1 _ "lake" "xml" "t" hfmt,
    h3.1, h3.2⟩

/-! ### `JSONFlattenerTransformer` (`utils/json_flattener.py`) -/

/-- Python `dict(items)`: first-occurrence key order, last assignment wins. -/
def pyDict (items : List (String × PyVal)) : Rec :=
  items.foldl (fun acc kv => setKV acc kv.1 kv.2) []

namespace JSONFlattenerTransformer

mutual

/-- `JSONFlattenerTransformer._flatten_dict`: recursively flatten nested
dicts into single-level keys joined by `sep`; list elements are flattened
with an `_<index>` suffix only when they are dicts, scalar list elements
are dropped; the collected items are rebuilt into a dict. -/
def flattenDict (d : List (String × PyVal)) (parentKey sep : String) :
    List (String × PyVal) :=
  pyDict (flattenItems d parentKey sep)

/-- The `items` accumulation loop of `_flatten_dict` (`new_key` is
`parent_key + sep + k` when there is a parent, else `k`). -/
def flattenItems : List (String × PyVal) → String → String → List (String × PyVal)
  | [], _, _ => []
  | (k, .dict kvs) :: rest, parentKey, sep =>
    flattenDict kvs (if parentKey = "" then k else parentKey ++ sep ++ k) sep ++
      flattenItems rest parentKey sep
  | (k, .list l) :: rest, parentKey, sep =>
    flattenList l (if parentKey = "" then k else parentKey ++ sep ++ k) sep 0 ++
      flattenItems rest parentKey sep
  | (k, v) :: rest, parentKey, sep =>
    [((if parentKey = "" then k else parentKey ++ sep ++ k), v)] ++
      flattenItems rest parentKey sep

/-- The enumerated list loop of `_flatten_dict`: only dict elements
contribute (with an `_<index>` key suffix); scalar elements are dropped. -/
def flattenList : List PyVal → String → String → Nat → List (String × PyVal)
  | [], _, _, _ => []
  | .dict kvs :: rest, newKey, sep, i =>
    flattenDict kvs (newKey ++ "_" ++ toString i) sep ++
      flattenList rest newKey sep (i + 1)
  | _ :: rest, newKey, sep, i => flattenList rest newKey sep (i + 1)

end

end JSONFlattenerTransformer

/-- Entries whose value is neither a dict nor a list (the ones
`_flatten_dict` keeps verbatim at top level). -/
def isScalarKV (kv : String × PyVal) : Bool :=
  match kv.2 with | .dict _ => false | .list _ => false | _ => true

/-- "Contains no nested mapping" for one value, at the depths flattening
inspects: not a dict, and if a list then with no dict elements. -/
def flatValue : PyVal → Bool
  | .dict _ => false
  | .list l => l.all (fun x => match x with | .dict _ => false | _ => true)
  | _ => true

theorem flattenList_no_dicts (l : List PyVal) (newKey sep : String)
    (h : l.all (fun x => match x with | .dict _ => false | _ => true) = true) :
    ∀ i, JSONFlattenerTransformer.flattenList l newKey sep i = [] := by
  induction l with
  | nil => intro i; rw [JSONFlattenerTransformer.flattenList]
  | cons x t ih =>
    intro i
    rw [List.all_cons, Bool.and_eq_true] at h
    cases x with
    | dict kvs => simp at h
    | null =>
      simp only [JSONFlattenerTransformer.flattenList]
      exact ih h.2 (i + 1)
    | str s2 =>
      simp only [JSONFlattenerTransformer.flattenList]
      exact ih h.2 (i + 1)
    | num q =>
      simp only [JSONFlattenerTransformer.flattenList]
      exact ih h.2 (i + 1)
    | bool b =>
      simp only [JSONFlattenerTransformer.flattenList]
      exact ih h.2 (i + 1)
    | ts t2 =>
      simp only [JSONFlattenerTransformer.flattenList]
      exact ih h.2 (i + 1)
    | list l2 =>
      simp only [JSONFlattenerTransformer.flattenList]
      exact ih h.2 (i + 1)

theorem flattenItems_flat (m : List (String × PyVal)) (sep : String)
    (h : m.all (fun kv => flatValue kv.2) = true) :
    JSONFlattenerTransformer.flattenItems m "" sep = m.filter isScalarKV := by
  induction m with
  | nil => rw [JSONFlattenerTransformer.flattenItems]; rfl
  | cons kv t ih =>
    obtain ⟨k, v⟩ := kv
    rw [List.all_cons, Bool.and_eq_true] at h
    cases v with
    | dict kvs => simp [flatValue] at h
    | list l =>
      simp only [JSONFlattenerTransformer.flattenItems]
      rw [flattenList_no_dicts l _ sep (by simpa [flatValue] using h.1) 0, ih h.2]
      simp [List.filter, isScalarKV]
    | null =>
      simp only [JSONFlattenerTransformer.flattenItems]
      rw [ih h.2]
      simp [List.filter, isScalarKV]
    | str s2 =>
      simp only [JSONFlattenerTransformer.flattenItems]
      rw [ih h.2]
      simp [List.filter, isScalarKV]
    | num q =>
      simp only [JSONFlattenerTransformer.flattenItems]
      rw [ih h.2]
      simp [List.filter, isScalarKV]
    | bool b =>
      simp only [JSONFlattenerTransformer.flattenItems]
      rw [ih h.2]
      simp [List.filter, isScalarKV]
    | ts t2 =>
      simp only [JSONFlattenerTransformer.flattenItems]
      rw [ih h.2]
      simp [List.filter, isScalarKV]

theorem setKV_append_of_notMem (acc : Rec) (k : String) (v : PyVal)
    (h : k ∉ acc.map Prod.fst) : setKV acc k v = acc ++ [(k, v)] := by
  induction acc with
  | nil => rfl
  | cons a t ih =>
    obtain ⟨k0, v0⟩ := a
    simp only [List.map_cons, List.mem_cons] at h
    push_neg at h
    have hne : ¬ k0 = k := fun he => h.1 he.symm
    simp [setKV, hne, ih h.2]

theorem foldl_setKV_nodup :
    ∀ (l : List (String × PyVal)) (acc : Rec),
      ((acc ++ l).map Prod.fst).Nodup →
      l.foldl (fun a kv => setKV a kv.1 kv.2) acc = acc ++ l := by
  intro l
  induction l with
  | nil => intro acc _; simp
  | cons kv t ih =>
    intro acc hnd
    have hk : kv.1 ∉ acc.map Prod.fst := by
      intro hmem
      rw [List.map_append, List.nodup_append] at hnd
      exact hnd.2.2 hmem (by simp)
    simp only [List.foldl_cons]
    rw [setKV_append_of_notMem acc kv.1 kv.2 hk]
    have hnd' : (((acc ++ [kv]) ++ t).map Prod.fst).Nodup := by
      rw [List.append_assoc]
      simpa using hnd
    rw [ih (acc ++ [kv]) hnd']
    simp

theorem pyDict_nodup (l : List (String × PyVal))
    (h : (l.map Prod.fst).Nodup) : pyDict l = l := by
  have := foldl_setKV_nodup l [] (by simpa using h)
  simpa [pyDict] using this

theorem flattenDict_flat (m : List (String × PyVal)) (sep : String)
    (hflat : m.all (fun kv => flatValue kv.2) = true)
    (hnd : (m.map Prod.fst).Nodup) :
    JSONFlattenerTransformer.flattenDict m "" sep = m.filter isScalarKV := by
  rw [JSONFlattenerTransformer.flattenDict, flattenItems_flat m sep hflat]
  apply pyDict_nodup
  exact ((List.filter_sublist m).map Prod.fst).nodup hnd

/-- C9: flattening is idempotent on an already-flat mapping — for every
mapping with distinct keys whose values contain no nested mappings,
`flatten(flatten(m)) = flatten(m)`. -/
theorem C9_flatten_idempotent (m : List (String × PyVal))
    (hflat : m.all (fun kv => flatValue kv.2) = true)
    (hnd : (m.map Prod.fst).Nodup) :
    JSONFlattenerTransformer.flattenDict
        (JSONFlattenerTransformer.flattenDict m "" "_") "" "_" =
      JSONFlattenerTransformer.flattenDict m "" "_" := by
  have h1 := flattenDict_flat m "_" hflat hnd
  have hflat2 : (m.filter isScalarKV).all (fun kv => flatValue kv.2) = true := by
    rw [List.all_eq_true]
    intro kv hkv
    have := List.of_mem_filter hkv
    obtain ⟨k, v⟩ := kv
    cases v <;> simp_all [isScalarKV, flatValue]
  have hnd2 : ((m.filter isScalarKV).map Prod.fst).Nodup :=
    ((List.filter_sublist m).map Prod.fst).nodup hnd
  rw [h1, flattenDict_flat _ "_" hflat2 hnd2]
  rw [List.filter_eq_self]
  intro kv hkv
  exact List.of_mem_filter hkv

/-- Witness for C9: a concrete flat mapping (with a scalar list value that
flattening drops) on which flattening is idempotent. -/
theorem C9_flatten_witness :
    ([("a", .num 1), ("b", .list [.num 2]), ("c", .str "x")] :
      List (String × PyVal)).all (fun kv => flatValue kv.2) = true ∧
    (([("a", .num 1), ("b", .list [.num 2]), ("c", .str "x")] :
      List (String × PyVal)).map Prod.fst).Nodup ∧
    JSONFlattenerTransformer.flattenDict
        (JSONFlattenerTransformer.flattenDict
          [("a", .num 1), ("b", .list [.num 2]), ("c", .str "x")] "" "_") "" "_" =
      JSONFlattenerTransformer.flattenDict
        [("a", .num 1), ("b", .list [.num 2]), ("c", .str "x")] "" "_" := by
  refine ⟨by decide, by decide, ?_⟩
  exact C9_flatten_idempotent _ (by decide) (by decide)

/-! ### Python string helpers (kernel-computable models of the `str`
methods the candidate normalizer uses) -/

/-- Whitespace for `str.strip()`. -/
def isPyWS (c : Char) : Bool :=
  c.toNat = 32 || c.toNat = 9 || c.toNat = 10 || c.toNat = 13

/-- `str.strip()`. -/
def pyTrim (s : String) : String :=
  String.mk (((s.data.dropWhile isPyWS).reverse.dropWhile isPyWS).reverse)

/-- ASCII lowering (the claims exercise only ASCII data). -/
def charLower (c : Char) : Char :=
  if 65 ≤ c.toNat ∧ c.toNat ≤ 90 then Char.ofNat (c.toNat + 32) else c

/-- ASCII raising. -/
def charUpper (c : Char) : Char :=
  if 97 ≤ c.toNat ∧ c.toNat ≤ 122 then Char.ofNat (c.toNat - 32) else c

/-- `str.lower()`. -/
def pyLower (s : String) : String := String.mk (s.data.map charLower)

/-- `str.upper()`. -/
def pyUpper (s : String) : String := String.mk (s.data.map charUpper)

/-- ASCII letter test. -/
def isAsciiAlpha (c : Char) : Bool :=
  (65 ≤ c.toNat && c.toNat ≤ 90) || (97 ≤ c.toNat && c.toNat ≤ 122)

/-- `str.title()`: uppercase each letter that follows a non-letter,
lowercase the rest. -/
def titleChars : Bool → List Char → List Char
  | _, [] => []
  | prevAlpha, c :: t =>
    (if prevAlpha then charLower c else charUpper c) :: titleChars (isAsciiAlpha c) t

/-- `str.title()`. -/
def pyTitle (s : String) : String := String.mk (titleChars false s.data)

/-! ### `CandidateDataService` (`app/services/data_service.py`): the
parallel batch normalizer -/

namespace CandidateDataService

/-- `_get_clean_value`: dictionary get (default `None`) with `.strip()` on
strings. -/
def getCleanValue (c : Rec) (k : String) : PyVal :=
  match c.lookup k with
  | some (.str s) => .str (pyTrim s)
  | some v => v
  | none => .null

/-- `candidate.get(k)`. -/
def getV (c : Rec) (k : String) : PyVal := (c.lookup k).getD .null

/-- `candidate.get(k, '').strip()` as used in the `fullName` f-string
(fields are strings or absent in every verified input). -/
def getStrD (c : Rec) (k : String) : String :=
  match c.lookup k with
  | some (.str s) => pyTrim s
  | _ => ""

/-- `_normalize_email`: `None` for falsy input, else lowercased and
stripped. -/
def normalizeEmail (v : PyVal) : PyVal :=
  if pyFalsy v then .null
  else match v with
    | .str s => .str (pyTrim (pyLower s))
    | v => v

/-- `_format_phone`: keep the digits of `str(phone)`; 11 digits →
`(DD) DDDDD-DDDD`, 10 digits → `(DD) DDDD-DDDD`, otherwise the bare
digits. -/
def formatPhone (v : PyVal) : PyVal :=
  if pyFalsy v then .null
  else
    let digits := (pyStr v).data.filter Char.isDigit
    if digits.length = 11 then
      .str ("(" ++ String.mk (digits.take 2) ++ ") " ++
        String.mk ((digits.drop 2).take 5) ++ "-" ++ String.mk (digits.drop 7))
    else if digits.length = 10 then
      .str ("(" ++ String.mk (digits.take 2) ++ ") " ++
        String.mk ((digits.drop 2).take 4) ++ "-" ++ String.mk (digits.drop 6))
    else .str (String.mk digits)

/-- `_normalize_state`: `str(state).upper().strip()[:2]`. -/
def normalizeState (v : PyVal) : PyVal :=
  if pyFalsy v then .null
  else .str (String.mk ((pyTrim (pyUpper (pyStr v))).data.take 2))

/-- `_normalize_country`: default `"Brasil"`, canonicalize the synonyms,
else title-case. -/
def normalizeCountry (v : PyVal) : PyVal :=
  if pyFalsy v then .str "Brasil"
  else
    let c := pyLower (pyTrim (pyStr v))
    if c = "br" ∨ c = "brasil" ∨ c = "brazil" then .str "Brasil"
    else .str (pyTitle c)

/-- `datetime.fromisoformat(...).isoformat()`, modelled as the identity on
the already-canonical ISO strings the service receives (which strings parse
and how they re-serialize is irrelevant to every verified claim; both the
parse-success and parse-failure paths return a string unchanged under this
model). -/
def fromIsoformatIso (s : String) : Option String := some s

/-- `_parse_date`. -/
def parseDate (v : PyVal) : PyVal :=
  if pyFalsy v then .null
  else match v with
    | .str s =>
      if s.data.contains 'Z' then
        match fromIsoformatIso (pyReplace s "Z" "+00:00") with
        | some out => .str out
        | none => .str s
      else
        match fromIsoformatIso s with
        | some out => .str out
        | none => .str s
    | v => v

/-- The keys excluded from `_originalData`. -/
def excludedKeys : List String :=
  ["id", "firstName", "lastName", "email", "telephone", "city", "state",
   "country", "cpf", "createdAt", "updatedAt"]

/-- `_process_candidate`: build the normalized record (insertion order as
in the source), then raise `ValueError("Missing required field: ...")` at
the first falsy required field. -/
def processCandidate (now : String) (c : Rec) : Except String Rec :=
  let p : Rec :=
    [("id", getCleanValue c "id"),
     ("cpf", getCleanValue c "cpf"),
     ("firstName", getCleanValue c "firstName"),
     ("lastName", getCleanValue c "lastName"),
     ("fullName", .str (pyTrim (getStrD c "firstName" ++ " " ++ getStrD c "lastName"))),
     ("email", normalizeEmail (getV c "email")),
     ("telephone", formatPhone (getV c "telephone")),
     ("city", getCleanValue c "city"),
     ("state", normalizeState (getV c "state")),
     ("country", normalizeCountry (getV c "country")),
     ("createdAt", parseDate (getV c "createdAt")),
     ("updatedAt", parseDate (getV c "updatedAt")),
     ("processedAt", .str now),
     ("_originalData", .dict (c.filter (fun kv => decide (kv.1 ∉ excludedKeys))))]
  match ["id", "firstName", "lastName", "cpf"].find?
      (fun f => pyFalsy ((p.lookup f).getD .null)) with
  | some f => .error ("Missing required field: " ++ f)
  | none => .ok p

/-- One record through `_process_batch`: the normalized record, or the
`{id, error, originalData}` failure marker when `_process_candidate`
raises. -/
def processOne (now : String) (c : Rec) : Rec :=
  match processCandidate now c with
  | .ok p => p
  | .error e => [("id", getV c "id"), ("error", .str e), ("originalData", .dict c)]

/-- `_process_batch`. -/
def processBatch (now : String) (batch : List Rec) : List Rec :=
  batch.map (processOne now)

/-- `[raw[i:i+bs] for i in range(0, len(raw), bs)]`.  (`bs = 0` makes
Python's `range` raise, producing no chunks.) -/
def chunksOf (bs : Nat) (l : List Rec) : List (List Rec) :=
  if h : bs = 0 ∨ l = [] then []
  else l.take bs :: chunksOf bs (l.drop bs)
termination_by l.length
decreasing_by
  rw [List.length_drop]
  rcases Nat.eq_zero_or_pos bs with hz | hp
  · exact absurd (Or.inl hz) h
  · have hl : l ≠ [] := fun he => h (Or.inr he)
    have : 0 < l.length := List.length_pos.mpr hl
    omega

/-- The chunks `process_candidates` submits to the worker pool ([] when it
early-returns on empty input). -/
def submittedBatches (raw : List Rec) (bs : Nat) : List (List Rec) :=
  if raw = [] then [] else chunksOf bs raw

/-- `process_candidates`: submit each chunk, then extend `results` in
`as_completed` order — `completionOrder` names the order in which the
futures complete (any permutation of the submission indices is
realizable). -/
def process_candidates (now : String) (raw : List Rec) (bs : Nat)
    (completionOrder : List Nat) : List Rec :=
  if raw = [] then []
  else ((completionOrder.filterMap (fun i => (submittedBatches raw bs)[i]?)).map
    (processBatch now)).flatten

end CandidateDataService

theorem chunksOf_flatten_aux (bs : Nat) (hbs : 0 < bs) :
    ∀ (n : Nat) (l : List Rec), l.length ≤ n →
      (CandidateDataService.chunksOf bs l).flatten = l := by
  intro n
  induction n with
  | zero =>
    intro l hl
    have hempty : l = [] := by cases l <;> simp_all
    subst hempty
    rw [CandidateDataService.chunksOf]
    simp
  | succ n ih =>
    intro l hl
    by_cases hempty : l = []
    · subst hempty
      rw [CandidateDataService.chunksOf]
      simp
    · rw [CandidateDataService.chunksOf]
      have hcond : ¬ (bs = 0 ∨ l = []) := by
        push_neg
        exact ⟨Nat.pos_iff_ne_zero.mp hbs, hempty⟩
      simp only [hcond, dite_false]
      have hlen : (l.drop bs).length ≤ n := by
        rw [List.length_drop]
        have : 0 < l.length := List.length_pos.mpr hempty
        omega
      rw [List.flatten_cons, ih (l.drop bs) hlen]
      exact List.take_append_drop bs l

theorem chunksOf_flatten (bs : Nat) (hbs : 0 < bs) (l : List Rec) :
    (CandidateDataService.chunksOf bs l).flatten = l :=
  chunksOf_flatten_aux bs hbs l.length l (Nat.le_refl _)

theorem range_filterMap_getElem (B : List (List Rec)) :
    (List.range B.length).filterMap (fun i => B[i]?) = B := by
  induction B with
  | nil => rfl
  | cons b t ih =>
    rw [List.length_cons, List.range_succ_eq_map]
    simp only [List.filterMap_cons, List.getElem?_cons_zero, List.filterMap_map]
    have h1 : ((fun i => (b :: t)[i]?) ∘ Nat.succ) = (fun i => t[i]?) := by
      funext i
      simp
    rw [h1, ih]

/-- C2 (amended): for every positive batch size and every realizable
completion order (a permutation of the submitted chunk indices), the
normalizer returns one output per input record — same length and same
multiset, each record either normalized or a failure marker — and the
output equals the input-ordered normalization exactly when chunks complete
in submission order; `as_completed` collection does not otherwise preserve
input order. -/
theorem C2_process_candidates_order (now : String) (raw : List Rec) (bs : Nat)
    (order : List Nat) (hbs : 0 < bs)
    (horder : order.Perm
      (List.range (CandidateDataService.submittedBatches raw bs).length)) :
    (CandidateDataService.process_candidates now raw bs order).length = raw.length ∧
    (CandidateDataService.process_candidates now raw bs order).Perm
      (raw.map (CandidateDataService.processOne now)) ∧
    CandidateDataService.process_candidates now raw bs
        (List.range (CandidateDataService.submittedBatches raw bs).length) =
      raw.map (CandidateDataService.processOne now) := by
  by_cases hraw : raw = []
  · subst hraw
    have hord : order = [] := by
      have := horder
      simp [CandidateDataService.submittedBatches] at this
      exact this
    subst hord
    exact ⟨rfl, List.Perm.refl _, rfl⟩
  · have hBc : CandidateDataService.submittedBatches raw bs =
        CandidateDataService.chunksOf bs raw := by
      simp [CandidateDataService.submittedBatches, hraw]
    have hflatten : (CandidateDataService.submittedBatches raw bs).flatten = raw := by
      rw [hBc]
      exact chunksOf_flatten bs hbs raw
    have hid : CandidateDataService.process_candidates now raw bs
        (List.range (CandidateDataService.submittedBatches raw bs).length) =
        raw.map (CandidateDataService.processOne now) := by
      simp only [CandidateDataService.process_candidates, hraw, if_false]
      rw [range_filterMap_getElem (CandidateDataService.submittedBatches raw bs)]
      show ((CandidateDataService.submittedBatches raw bs).map
        (List.map (CandidateDataService.processOne now))).flatten = _
      rw [← List.map_flatten, hflatten]
    have hperm0 : (order.filterMap
        (fun i => (CandidateDataService.submittedBatches raw bs)[i]?)).Perm
        (CandidateDataService.submittedBatches raw bs) := by
      have h := horder.filterMap
        (fun i => (CandidateDataService.submittedBatches raw bs)[i]?)
      rw [range_filterMap_getElem (CandidateDataService.submittedBatches raw bs)] at h
      exact h
    have hperm : (CandidateDataService.process_candidates now raw bs order).Perm
        (raw.map (CandidateDataService.processOne now)) := by
      simp only [CandidateDataService.process_candidates, hraw, if_false]
      have h1 := (hperm0.map (CandidateDataService.processBatch now)).flatten
      refine h1.trans ?_
      rw [show ((CandidateDataService.submittedBatches raw bs).map
        (CandidateDataService.processBatch now)) =
        (CandidateDataService.submittedBatches raw bs).map
          (List.map (CandidateDataService.processOne now)) from rfl]
      rw [← List.map_flatten, hflatten]
    refine ⟨?_, hperm, hid⟩
    rw [hperm.length_eq, List.length_map]

/-- C2 counterexample: on the two-record input of §8 with `batchSize = 1`,
under the realizable completion order in which the second chunk finishes
first, the output has the failure marker (for input record 1) at index 0
and the normalized record (for input record 0) at index 1 — so element `i`
of the output is NOT the normalization of input record `i`, and the §8
ordering assertion fails. -/
theorem C2_as_completed_reorders :
    CandidateDataService.process_candidates "T"
        [[("id", .str "1"), ("firstName", .str "Ann"), ("lastName", .str "Lee"),
          ("cpf", .str "123")],
         [("id", .str "2")]] 1 [1, 0] =
      [[("id", .str "2"), ("error", .str "Missing required field: firstName"),
        ("originalData", .dict [("id", .str "2")])],
       [("id", .str "1"), ("cpf", .str "123"), ("firstName", .str "Ann"),
        ("lastName", .str "Lee"), ("fullName", .str "Ann Lee"), ("email", .null),
        ("telephone", .null), ("city", .null), ("state", .null),
        ("country", .str "Brasil"), ("createdAt", .null), ("updatedAt", .null),
        ("processedAt", .str "T"), ("_originalData", .dict [])]] ∧
    ((CandidateDataService.process_candidates "T"
        [[("id", .str "1"), ("firstName", .str "Ann"), ("lastName", .str "Lee"),
          ("cpf", .str "123")],
         [("id", .str "2")]] 1 [1, 0]).headD []).lookup "error" =
      some (.str "Missing required field: firstName") := by
  have hB : CandidateDataService.submittedBatches
      [[("id", .str "1"), ("firstName", .str "Ann"), ("lastName", .str "Lee"),
        ("cpf", .str "123")],
       [("id", .str "2")]] 1 =
      [[[("id", .str "1"), ("firstName", .str "Ann"), ("lastName", .str "Lee"),
         ("cpf", .str "123")]],
       [[("id", .str "2")]]] := by
    simp [CandidateDataService.submittedBatches, CandidateDataService.chunksOf]
  constructor
  · simp only [CandidateDataService.process_candidates, hB]
    decide
  · simp only [CandidateDataService.process_candidates, hB]
    decide

/-- Witness for C2 (amended): the §8 input with `batchSize = 1` under
completion order `[1, 0]` — the hypotheses hold, the output still has
length 2 and is a permutation of the input-ordered normalization. -/
theorem C2_process_candidates_witness :
    (0 < 1) ∧
    (([1, 0] : List Nat).Perm (List.range (CandidateDataService.submittedBatches
       [[("id", .str "1"), ("firstName", .str "Ann"), ("lastName", .str "Lee"),
         ("cpf", .str "123")],
        [("id", .str "2")]] 1).length)) ∧
    (CandidateDataService.process_candidates "T"
       [[("id", .str "1"), ("firstName", .str "Ann"), ("lastName", .str "Lee"),
         ("cpf", .str "123")],
        [("id", .str "2")]] 1 [1, 0]).length = 2 := by
  have hB : CandidateDataService.submittedBatches
      [[("id", .str "1"), ("firstName", .str "Ann"), ("lastName", .str "Lee"),
        ("cpf", .str "123")],
       [("id", .str "2")]] 1 =
      [[[("id", .str "1"), ("firstName", .str "Ann"), ("lastName", .str "Lee"),
         ("cpf", .str "123")]],
       [[("id", .str "2")]]] := by
    simp [CandidateDataService.submittedBatches, CandidateDataService.chunksOf]
  have horder : ([1, 0] : List Nat).Perm (List.range
      (CandidateDataService.submittedBatches
        [[("id", .str "1"), ("firstName", .str "Ann"), ("lastName", .str "Lee"),
          ("cpf", .str "123")],
         [("id", .str "2")]] 1).length) := by
    rw [hB]
    decide
  have h := C2_process_candidates_order "T"
    [[("id", .str "1"), ("firstName", .str "Ann"), ("lastName", .str "Lee"),
      ("cpf", .str "123")],
     [("id", .str "2")]] 1 [1, 0] (by decide) horder
  exact ⟨by decide, horder, h.1⟩

/-- C10: the batch normalizer returns an empty list on empty input without
submitting any chunk to the worker pool, for every batch size and every
completion order. -/
theorem C10_empty_input_no_chunks (now : String) (bs : Nat) (order : List Nat) :
    CandidateDataService.process_candidates now [] bs order = [] ∧
    CandidateDataService.submittedBatches [] bs = [] :=
  ⟨rfl, rfl⟩

end DataMS
